import Mathlib

/-!
Verification of the patient-allocation metaheuristics engine.

This file is a shallow embedding, in Lean 4, of the two Python modules
`metaheuristics.py` (Solution / SimulatedAnnealing / TabuSearch) and
`metaheuristics_NEW.py` (evaluator, greedy constructive heuristic,
IteratedLocalSearch, VariableNeighborhoodSearch) of the repository.

Modelling conventions:
* Python `float` values are modelled as exact rationals (`ℚ`); `float("inf")`
  is modelled as `⊤ : WithTop ℚ` where the code stores infinities.
* Python dicts keyed by patient/ward/specialism identifier strings are
  modelled as association lists `List (ℕ × β)` in insertion order, which
  mirrors the iteration order and update semantics of Python dicts
  (updating an existing key keeps its position, a fresh key is appended).
* Randomness (`random.choice`, `random.sample`, `random.shuffle`,
  `random.randint`, `random.random`) is modelled by explicit oracle
  parameters supplied to each algorithm; theorems quantify over all oracles.
* Wall-clock timeout tests (`time.time() - t0 > budget`) are modelled by
  Boolean oracle streams, one bit per check site.
* `math.exp` is modelled by an abstract function `e : ℚ → ℚ`; the argument
  fed to it and the use of its value are translated from the source.
* In-place mutation followed by manual restore in the Python code is
  modelled by ordinary functional update (the restore branch simply keeps
  the previous value).
-/

set_option maxHeartbeats 1000000
set_option linter.unusedVariables false
set_option linter.unreachableTactic false
set_option linter.unusedTactic false

/-- Python dict lookup `l[k]`, as an association-list search; `d` is the value
returned on a missing key (the callers below only look up keys that are
present, matching the places where the Python code would otherwise raise). -/
def dictGetD {β : Type} (l : List (ℕ × β)) (k : ℕ) (d : β) : β :=
  match l.find? (fun kv => decide (kv.1 = k)) with
  | some kv => kv.2
  | none => d

/-- Python dict lookup returning `none` on a missing key (used by the
exception-aware variants of the evaluator). -/
def dictFind {β : Type} (l : List (ℕ × β)) (k : ℕ) : Option β :=
  (l.find? (fun kv => decide (kv.1 = k))).map Prod.snd

/-- Python dict update `l[k] = v`: replace in place if the key exists,
append otherwise (insertion order is preserved, as for Python dicts). -/
def dictSet {β : Type} (l : List (ℕ × β)) (k : ℕ) (v : β) : List (ℕ × β) :=
  if l.any (fun kv => decide (kv.1 = k)) then
    l.map (fun kv => if kv.1 = k then (k, v) else kv)
  else
    l ++ [(k, v)]

/-- Python `range(a, b)`. -/
def rangeFT (a b : ℕ) : List ℕ :=
  (List.range (b - a)).map (a + ·)

/-- Stable insertion used by `pySort`: `x` is placed after every element `y`
of the already-sorted list with `le y x`, so equal elements keep their
original relative order. -/
def pyInsert {α : Type} (le : α → α → Bool) (x : α) : List α → List α
  | [] => [x]
  | y :: ys => if le y x then y :: pyInsert le x ys else x :: y :: ys

/-- Python `sorted(l, key=...)`: a stable sort with respect to the Boolean
comparison `le`. -/
def pySort {α : Type} (le : α → α → Bool) (l : List α) : List α :=
  l.foldl (fun acc x => pyInsert le x acc) []

/-- Model of `random.sample(l, k)` for `k ≤ len(l)`: the oracle `pick`
selects, without replacement, which remaining element is taken at each of
the `k` draws. -/
def sampleIdx {α : Type} [Inhabited α] (l : List α) (k : ℕ) (pick : ℕ → ℕ) : List α :=
  match k with
  | 0 => []
  | k + 1 =>
    if l.length = 0 then []
    else
      let i := pick 0 % l.length
      l.getD i default :: sampleIdx (l.eraseIdx i) k (fun j => pick (j + 1))

/-- Model of `random.choice(l)` (callers only apply it to nonempty lists,
where Python's `choice` is total). -/
def pyChoice {α : Type} [Inhabited α] (l : List α) (i : ℕ) : α :=
  l.getD (i % l.length) default

/-- Model of `random.randint(a, b)` for `a ≤ b`: an inclusive-range draw. -/
def pyRandint (a b : ℕ) (i : ℕ) : ℕ :=
  a + i % (b + 1 - a)

/-! ## Data model (read-only input, §3 of the spec; field accesses follow
`data_parser.PatientAllocationData` exactly as the two modules use it) -/

/-- One patient record. -/
structure Patient where
  specialization : ℕ
  earliest : ℕ
  latest : ℕ
  los : ℕ
  surgery_duration : ℚ
  workload_per_day : List ℚ
deriving DecidableEq, Inhabited

/-- One ward record. -/
structure Ward where
  bed_capacity : ℕ
  workload_capacity : ℚ
  major_specialization : ℕ
  minor_specializations : List ℕ
  carryover_patients : List ℕ
  carryover_workload : List ℚ
deriving DecidableEq, Inhabited

/-- One specialism record. -/
structure Specialism where
  ot_time : List ℚ
  workload_factor : ℚ
deriving DecidableEq, Inhabited

/-- The per-run problem data. -/
structure PatientAllocationData where
  patients : List (ℕ × Patient)
  wards : List (ℕ × Ward)
  specialisms : List (ℕ × Specialism)
  num_days : ℕ
  weight_delay : ℚ
  weight_overtime : ℚ
  weight_undertime : ℚ
deriving DecidableEq, Inhabited

/-- One allocation entry `{"ward": w, "day": d}`. -/
structure Assign where
  ward : ℕ
  day : ℕ
deriving DecidableEq, Inhabited

/-- An allocation: the dict `{patient_id: {"ward": ..., "day": ...}}`. -/
abbrev Alloc := List (ℕ × Assign)

/-! ## `metaheuristics_NEW.py` — utilities and evaluator -/

/-- `compatible_wards_for_patient` (metaheuristics_NEW.py:23). -/
def compatible_wards_for_patient (data : PatientAllocationData) (p : Patient) : List ℕ :=
  (data.wards.filter
    (fun wv =>
      decide (p.specialization = wv.2.major_specialization) ||
      wv.2.minor_specializations.contains p.specialization)).map Prod.fst

/-- `count_beds_used_on_day` (metaheuristics_NEW.py:32). -/
def count_beds_used_on_day (data : PatientAllocationData) (allocation : Alloc)
    (ward_name d : ℕ) : ℕ :=
  allocation.foldl
    (fun used kv =>
      if kv.2.ward ≠ ward_name then used
      else
        let p := dictGetD data.patients kv.1 default
        if kv.2.day ≤ d ∧ d < kv.2.day + p.los then used + 1 else used)
    ((dictGetD data.wards ward_name default).carryover_patients.getD d 0)

/-- `feasible_after_change_beds` (metaheuristics_NEW.py:43); `change = none`
checks the allocation as is. -/
def feasible_after_change_beds (data : PatientAllocationData) (allocation : Alloc)
    (change : Option (ℕ × ℕ × ℕ)) : Bool :=
  let allocation :=
    match change with
    | some (pid, new_ward, new_day) => dictSet allocation pid ⟨new_ward, new_day⟩
    | none => allocation
  data.wards.all (fun wv =>
    (List.range data.num_days).all (fun d =>
      decide (count_beds_used_on_day data allocation wv.1 d ≤ wv.2.bed_capacity)))

/-- `bed_capacity_violations` (metaheuristics_NEW.py:58). -/
def bed_capacity_violations (data : PatientAllocationData) (allocation : Alloc) : ℕ :=
  data.wards.foldl
    (fun vio wv =>
      (List.range data.num_days).foldl
        (fun vio d =>
          let used := count_beds_used_on_day data allocation wv.1 d
          if used > wv.2.bed_capacity then vio + (used - wv.2.bed_capacity) else vio)
        vio)
    0

/-- `compute_ot_used_by_spec_day` (metaheuristics_NEW.py:69). -/
def compute_ot_used_by_spec_day (data : PatientAllocationData) (allocation : Alloc)
    (spec d : ℕ) : ℚ :=
  allocation.foldl
    (fun total kv =>
      let p := dictGetD data.patients kv.1 default
      if p.specialization = spec ∧ kv.2.day = d then total + p.surgery_duration else total)
    0

/-- The per-ward-day accumulated workload inside
`compute_workload_normalized_and_z` (metaheuristics_NEW.py:84-97): carryover
workload plus each resident patient's day-of-stay workload, discounted by the
specialism factor when the patient's specialization is a minor one of the
ward.  The `0 ≤ day_of_stay` half of the source's guard is automatic here
because `day_of_stay = d - admitDay` is a truncated `ℕ` subtraction taken
under `admitDay ≤ d`. -/
def ward_day_workload (data : PatientAllocationData) (allocation : Alloc)
    (wname : ℕ) (ward : Ward) (d : ℕ) : ℚ :=
  allocation.foldl
    (fun total_w kv =>
      if kv.2.ward ≠ wname then total_w
      else
        let p := dictGetD data.patients kv.1 default
        let admitDay := kv.2.day
        if admitDay ≤ d ∧ d < admitDay + p.los then
          let day_of_stay := d - admitDay
          if day_of_stay < p.workload_per_day.length then
            let base := p.workload_per_day.getD day_of_stay 0
            let spec := p.specialization
            let base :=
              if spec ≠ ward.major_specialization ∧ ward.minor_specializations.contains spec then
                base * (dictGetD data.specialisms spec default).workload_factor
              else base
            total_w + base
          else total_w
        else total_w)
    (ward.carryover_workload.getD d 0)

/-- `compute_workload_normalized_and_z` (metaheuristics_NEW.py:78): the map of
normalized ward-day workloads and their maximum `z` (which starts at `0.0`). -/
def compute_workload_normalized_and_z (data : PatientAllocationData)
    (allocation : Alloc) : List ((ℕ × ℕ) × ℚ) × ℚ :=
  data.wards.foldl
    (fun acc wv =>
      (List.range data.num_days).foldl
        (fun acc d =>
          let total_w := ward_day_workload data allocation wv.1 wv.2 d
          let xval := if wv.2.workload_capacity > 0 then total_w / wv.2.workload_capacity else 0
          (acc.1 ++ [((wv.1, d), xval)], max acc.2 xval))
        acc)
    ([], 0)

/-- `compute_objective_components` (metaheuristics_NEW.py:103): total delay,
total overtime, total undertime, the workload maximum `z`, the normalized
workload map and the per-(spec, day) theatre-time record. -/
def compute_objective_components (data : PatientAllocationData) (allocation : Alloc) :
    ℚ × ℚ × ℚ × ℚ × (List ((ℕ × ℕ) × ℚ)) × (List ((ℕ × ℕ) × (ℚ × ℚ × ℚ × ℚ))) :=
  let delays :=
    allocation.foldl
      (fun delays kv =>
        let p := dictGetD data.patients kv.1 default
        delays + max 0 ((kv.2.day : ℚ) - (p.earliest : ℚ)))
      0
  let ot :=
    data.specialisms.foldl
      (fun acc sv =>
        (List.range data.num_days).foldl
          (fun acc d =>
            let used := compute_ot_used_by_spec_day data allocation sv.1 d
            let avail := sv.2.ot_time.getD d 0
            if used > avail then
              (acc.1 + (used - avail), acc.2.1, acc.2.2 ++ [((sv.1, d), (used, avail, used - avail, 0))])
            else
              (acc.1, acc.2.1 + (avail - used), acc.2.2 ++ [((sv.1, d), (used, avail, 0, avail - used))]))
          acc)
      ((0 : ℚ), (0 : ℚ), ([] : List ((ℕ × ℕ) × (ℚ × ℚ × ℚ × ℚ))))
  let xz := compute_workload_normalized_and_z data allocation
  (delays, ot.1, ot.2.1, xz.2, xz.1, ot.2.2)

/-- `objective_value` (metaheuristics_NEW.py:127). -/
def objective_value (data : PatientAllocationData) (allocation : Alloc)
    (lambda1 lambda2 : ℚ) : ℚ :=
  let c := compute_objective_components data allocation
  lambda1 * (data.weight_overtime * c.2.1 + data.weight_undertime * c.2.2.1 +
    data.weight_delay * c.1) + lambda2 * c.2.2.2.1

/-- `objective_value_penalized` (metaheuristics_NEW.py:134). -/
def objective_value_penalized (data : PatientAllocationData) (allocation : Alloc)
    (lambda1 lambda2 penalty_weight : ℚ) : ℚ :=
  objective_value data allocation lambda1 lambda2 +
    penalty_weight * (bed_capacity_violations data allocation : ℚ)

/-! ## `metaheuristics_NEW.py` — greedy constructive heuristic -/

/-- `_score_trial` (metaheuristics_NEW.py:142): `⊤` models `float("inf")` for
a capacity-infeasible trial placement. -/
def _score_trial (data : PatientAllocationData) (alloc : Alloc) (pid w d : ℕ)
    (lambda1 lambda2 : ℚ) : WithTop ℚ :=
  if feasible_after_change_beds data alloc (some (pid, w, d)) then
    ((objective_value data (dictSet alloc pid ⟨w, d⟩) lambda1 lambda2 : ℚ) : WithTop ℚ)
  else ⊤

/-- The candidate list built inside `_tiny_repair_shift_same_ward_day_forward`
(metaheuristics_NEW.py:151-157): patients of the ward whose stay covers the
congested day. -/
def repairCandidates (data : PatientAllocationData) (alloc : Alloc)
    (ward_name congested_day : ℕ) : List ℕ :=
  (alloc.filter
    (fun kv =>
      decide (kv.2.ward = ward_name) &&
      (let p := dictGetD data.patients kv.1 default
       decide (kv.2.day ≤ congested_day ∧ congested_day < kv.2.day + p.los)))).map Prod.fst

/-- The candidate loop of `_tiny_repair_shift_same_ward_day_forward`
(metaheuristics_NEW.py:160-173), after shuffling: try to push one candidate's
admission one day forward, keeping its window, the horizon and global bed
feasibility; `tried` counts candidates inspected, bounded by `max_shifts`. -/
def tinyRepairGo (data : PatientAllocationData) (alloc : Alloc) (max_shifts : ℕ) :
    List ℕ → ℕ → Bool × Alloc
  | [], _ => (false, alloc)
  | pid :: rest, tried =>
    if tried ≥ max_shifts then (false, alloc)
    else
      let p := dictGetD data.patients pid default
      let a_day := (dictGetD alloc pid default).day
      if a_day + 1 ≤ min p.latest (data.num_days - 1) then
        let trial := dictSet alloc pid ⟨(dictGetD alloc pid default).ward, a_day + 1⟩
        if feasible_after_change_beds data trial none then (true, trial)
        else tinyRepairGo data alloc max_shifts rest (tried + 1)
      else tinyRepairGo data alloc max_shifts rest (tried + 1)

/-- `_tiny_repair_shift_same_ward_day_forward` (metaheuristics_NEW.py:150);
`shuffleF` is the oracle standing for `random.shuffle` on the candidate
list. -/
def _tiny_repair_shift_same_ward_day_forward (data : PatientAllocationData)
    (alloc : Alloc) (ward_name congested_day max_shifts : ℕ)
    (shuffleF : List ℕ → List ℕ) : Bool × Alloc :=
  tinyRepairGo data alloc max_shifts
    (shuffleF (repairCandidates data alloc ward_name congested_day)) 0

/-- The per-day capacity scan of the greedy first-fit
(metaheuristics_NEW.py:198-203): true when every day of the stay starting at
`d` keeps strictly below capacity room in ward `w`. -/
def stayFits (data : PatientAllocationData) (alloc : Alloc) (w cap d los : ℕ) : Bool :=
  (rangeFT d (min (d + los) data.num_days)).all
    (fun day_check => decide (count_beds_used_on_day data alloc w day_check < cap))

/-- The first-fit scan of `greedy_feasible_by_window_strict`
(metaheuristics_NEW.py:193-209, repeated verbatim at 221-235): the first
compatible ward, and within it the first window day, whose whole stay fits. -/
def firstFit (data : PatientAllocationData) (alloc : Alloc) (p : Patient)
    (wards : List ℕ) : Option (ℕ × ℕ) :=
  wards.findSome? (fun w =>
    let cap := (dictGetD data.wards w default).bed_capacity
    ((rangeFT p.earliest (min (p.latest + 1) data.num_days)).find?
      (fun d => stayFits data alloc w cap d p.los)).map (fun d => (w, d)))

/-- The innermost `day_check` loop of the repair phase
(metaheuristics_NEW.py:214-219): every congested day triggers one repair
attempt, a successful repair breaks out of this loop.  The `ℕ` component
threads the index of the next `random.shuffle` call for the oracle. -/
def repairDayChecks (data : PatientAllocationData)
    (shuffle : ℕ → List ℕ → List ℕ) (w : ℕ) :
    List ℕ → Alloc → ℕ → Alloc × ℕ
  | [], alloc, ctr => (alloc, ctr)
  | day_check :: rest, alloc, ctr =>
    let used := count_beds_used_on_day data alloc w day_check
    let cap := (dictGetD data.wards w default).bed_capacity
    if used ≥ cap then
      let res := _tiny_repair_shift_same_ward_day_forward data alloc w day_check 3 (shuffle ctr)
      if res.1 then (res.2, ctr + 1)
      else repairDayChecks data shuffle w rest res.2 (ctr + 1)
    else repairDayChecks data shuffle w rest alloc ctr

/-- The `d` loop of the repair phase (metaheuristics_NEW.py:213). -/
def repairDays (data : PatientAllocationData) (shuffle : ℕ → List ℕ → List ℕ)
    (w los : ℕ) : List ℕ → Alloc → ℕ → Alloc × ℕ
  | [], alloc, ctr => (alloc, ctr)
  | d :: rest, alloc, ctr =>
    let res := repairDayChecks data shuffle w (rangeFT d (min (d + los) data.num_days)) alloc ctr
    repairDays data shuffle w los rest res.1 res.2

/-- The ward loop of the repair phase (metaheuristics_NEW.py:212). -/
def repairWards (data : PatientAllocationData) (shuffle : ℕ → List ℕ → List ℕ)
    (p : Patient) : List ℕ → Alloc → ℕ → Alloc × ℕ
  | [], alloc, ctr => (alloc, ctr)
  | w :: rest, alloc, ctr =>
    let res := repairDays data shuffle w p.los
      (rangeFT p.earliest (min (p.latest + 1) data.num_days)) alloc ctr
    repairWards data shuffle p rest res.1 res.2

/-- The objective-scored fallback scan of `greedy_feasible_by_window_strict`
(metaheuristics_NEW.py:237-251): the (ward, day) pair of minimal
`_score_trial` score, if any pair scores below `float("inf")` (ties keep the
first pair in scan order, because only a strictly smaller score replaces the
incumbent). -/
def fallbackScan (data : PatientAllocationData) (alloc : Alloc) (pid : ℕ)
    (p : Patient) (wards : List ℕ) : Option (ℕ × ℕ) :=
  (wards.foldl
    (fun acc w =>
      (rangeFT p.earliest (min (p.latest + 1) data.num_days)).foldl
        (fun acc d =>
          let score := _score_trial data alloc pid w d (1/2) (1/2)
          if score < acc.1 then (score, some (w, d)) else acc)
        acc)
    ((⊤ : WithTop ℚ), (none : Option (ℕ × ℕ)))).2

/-- Placement of one patient in `greedy_feasible_by_window_strict`
(metaheuristics_NEW.py:188-254): first-fit, then the bounded forward-shift
repair followed by a second first-fit scan, then the objective-scored
fallback; `none` models the saturation `RuntimeError`.  The `ℕ` component
threads the shuffle-oracle index. -/
def placePatient (data : PatientAllocationData) (shuffle : ℕ → List ℕ → List ℕ)
    (alloc : Alloc) (pid : ℕ) (p : Patient) (ctr : ℕ) : Option Alloc × ℕ :=
  let wards := compatible_wards_for_patient data p
  match firstFit data alloc p wards with
  | some (w, d) => (some (dictSet alloc pid ⟨w, d⟩), ctr)
  | none =>
    let rep := repairWards data shuffle p wards alloc ctr
    match firstFit data rep.1 p wards with
    | some (w, d) => (some (dictSet rep.1 pid ⟨w, d⟩), rep.2)
    | none =>
      match fallbackScan data rep.1 pid p wards with
      | some (w, d) => (some (dictSet rep.1 pid ⟨w, d⟩), rep.2)
      | none => (none, rep.2)

/-- The sort order of `greedy_feasible_by_window_strict`
(metaheuristics_NEW.py:177-184): window width ascending, earliest day
ascending, length-of-stay descending (a stable sort, like Python's). -/
def greedyLE (a b : ℕ × Patient) : Bool :=
  decide (a.2.latest - a.2.earliest < b.2.latest - b.2.earliest) ||
  (decide (a.2.latest - a.2.earliest = b.2.latest - b.2.earliest) &&
    (decide (a.2.earliest < b.2.earliest) ||
     (decide (a.2.earliest = b.2.earliest) && decide (b.2.los ≤ a.2.los))))

/-- The patient loop of `greedy_feasible_by_window_strict`: place each patient
in order; an unplaceable patient raises, identified by its id. -/
def greedyGo (data : PatientAllocationData) (shuffle : ℕ → List ℕ → List ℕ) :
    List (ℕ × Patient) → Alloc → ℕ → Except ℕ Alloc
  | [], alloc, _ => .ok alloc
  | (pid, p) :: rest, alloc, ctr =>
    match placePatient data shuffle alloc pid p ctr with
    | (some alloc', ctr') => greedyGo data shuffle rest alloc' ctr'
    | (none, _) => .error pid

/-- `greedy_feasible_by_window_strict` (metaheuristics_NEW.py:176); the
`Except ℕ` error carries the id of the patient named in the saturation
`RuntimeError`. -/
def greedy_feasible_by_window_strict (data : PatientAllocationData)
    (shuffle : ℕ → List ℕ → List ℕ) : Except ℕ Alloc :=
  greedyGo data shuffle (pySort greedyLE data.patients) [] 0

/-! ## Exception-aware evaluator variants

These re-translate the evaluator of `metaheuristics_NEW.py` with Python's
partial primitives made explicit: a dict lookup on a missing key and an
unguarded division are modelled as `none` (a raised exception), and the
source's guards appear exactly where the source has them.  They are used to
settle the totality claim about the evaluator; the horizon-indexed data
arrays (`carryover_*`, `ot_time`), which the parser builds with one entry
per day and which do not depend on the allocation, stay total lookups. -/

/-- Python division, raising on a zero divisor. -/
def divE (a b : ℚ) : Option ℚ :=
  if b = 0 then none else some (a / b)

/-- Exception-aware `count_beds_used_on_day`. -/
def count_beds_used_on_dayE (data : PatientAllocationData) (allocation : Alloc)
    (ward_name d : ℕ) : Option ℕ :=
  allocation.foldlM
    (fun used kv =>
      if kv.2.ward ≠ ward_name then some used
      else do
        let p ← dictFind data.patients kv.1
        if kv.2.day ≤ d ∧ d < kv.2.day + p.los then some (used + 1) else some used)
    ((dictGetD data.wards ward_name default).carryover_patients.getD d 0)

/-- Exception-aware `bed_capacity_violations`. -/
def bed_capacity_violationsE (data : PatientAllocationData) (allocation : Alloc) :
    Option ℕ :=
  data.wards.foldlM
    (fun vio wv =>
      (List.range data.num_days).foldlM
        (fun vio d => do
          let used ← count_beds_used_on_dayE data allocation wv.1 d
          if used > wv.2.bed_capacity then some (vio + (used - wv.2.bed_capacity)) else some vio)
        vio)
    0

/-- Exception-aware `compute_ot_used_by_spec_day`. -/
def compute_ot_used_by_spec_dayE (data : PatientAllocationData) (allocation : Alloc)
    (spec d : ℕ) : Option ℚ :=
  allocation.foldlM
    (fun total kv => do
      let p ← dictFind data.patients kv.1
      if p.specialization = spec ∧ kv.2.day = d then some (total + p.surgery_duration)
      else some total)
    0

/-- Exception-aware `ward_day_workload`: the workload profile is indexed with
`List.get?` under the source's bounds guard, and the discount factor lookup
may miss. -/
def ward_day_workloadE (data : PatientAllocationData) (allocation : Alloc)
    (wname : ℕ) (ward : Ward) (d : ℕ) : Option ℚ :=
  allocation.foldlM
    (fun total_w kv =>
      if kv.2.ward ≠ wname then some total_w
      else do
        let p ← dictFind data.patients kv.1
        let admitDay := kv.2.day
        if admitDay ≤ d ∧ d < admitDay + p.los then
          let day_of_stay := d - admitDay
          if day_of_stay < p.workload_per_day.length then do
            let base ← p.workload_per_day.get? day_of_stay
            let spec := p.specialization
            let base ←
              if spec ≠ ward.major_specialization ∧ ward.minor_specializations.contains spec then do
                let sp ← dictFind data.specialisms spec
                some (base * sp.workload_factor)
              else some base
            some (total_w + base)
          else some total_w
        else some total_w)
    (ward.carryover_workload.getD d 0)

/-- Exception-aware `compute_workload_normalized_and_z`: the normalization
divides only under the source's `cap > 0` guard. -/
def compute_workload_normalized_and_zE (data : PatientAllocationData)
    (allocation : Alloc) : Option (List ((ℕ × ℕ) × ℚ) × ℚ) :=
  data.wards.foldlM
    (fun acc wv =>
      (List.range data.num_days).foldlM
        (fun acc d => do
          let total_w ← ward_day_workloadE data allocation wv.1 wv.2 d
          let xval ← if wv.2.workload_capacity > 0 then divE total_w wv.2.workload_capacity else some 0
          some (acc.1 ++ [((wv.1, d), xval)], max acc.2 xval))
        acc)
    ([], 0)

/-- Exception-aware `compute_objective_components`. -/
def compute_objective_componentsE (data : PatientAllocationData) (allocation : Alloc) :
    Option (ℚ × ℚ × ℚ × ℚ × (List ((ℕ × ℕ) × ℚ)) × (List ((ℕ × ℕ) × (ℚ × ℚ × ℚ × ℚ)))) := do
  let delays ←
    allocation.foldlM
      (fun delays kv => do
        let p ← dictFind data.patients kv.1
        some (delays + max 0 ((kv.2.day : ℚ) - (p.earliest : ℚ))))
      (0 : ℚ)
  let ot ←
    data.specialisms.foldlM
      (fun acc sv =>
        (List.range data.num_days).foldlM
          (fun acc d => do
            let used ← compute_ot_used_by_spec_dayE data allocation sv.1 d
            let avail := sv.2.ot_time.getD d 0
            if used > avail then
              some (acc.1 + (used - avail), acc.2.1,
                acc.2.2 ++ [((sv.1, d), (used, avail, used - avail, 0))])
            else
              some (acc.1, acc.2.1 + (avail - used),
                acc.2.2 ++ [((sv.1, d), (used, avail, 0, avail - used))]))
          acc)
      ((0 : ℚ), (0 : ℚ), ([] : List ((ℕ × ℕ) × (ℚ × ℚ × ℚ × ℚ))))
  let xz ← compute_workload_normalized_and_zE data allocation
  some (delays, ot.1, ot.2.1, xz.2, xz.1, ot.2.2)

/-- Exception-aware `objective_value`. -/
def objective_valueE (data : PatientAllocationData) (allocation : Alloc)
    (lambda1 lambda2 : ℚ) : Option ℚ := do
  let c ← compute_objective_componentsE data allocation
  some (lambda1 * (data.weight_overtime * c.2.1 + data.weight_undertime * c.2.2.1 +
    data.weight_delay * c.1) + lambda2 * c.2.2.2.1)

/-- Exception-aware `objective_value_penalized`. -/
def objective_value_penalizedE (data : PatientAllocationData) (allocation : Alloc)
    (lambda1 lambda2 penalty_weight : ℚ) : Option ℚ := do
  let f_obj ← objective_valueE data allocation lambda1 lambda2
  let violations ← bed_capacity_violationsE data allocation
  some (f_obj + penalty_weight * (violations : ℚ))

/-! ## `metaheuristics_NEW.py` — Iterated Local Search -/

/-- Python `int(q)` for the nonnegative rationals it is applied to below,
where truncation towards zero is the floor. -/
def pyFloor (q : ℚ) : ℕ := ⌊q⌋₊

/-- Oracle for one inner iteration of `_local_search_fast`: the time check at
the top of the `while` body, the picks of the patient sample, the time check
before each sampled patient, and the picks of each patient's day sample. -/
structure LSChoice where
  timeTop : Bool
  pick : ℕ → ℕ
  timeIn : ℕ → Bool
  dayPick : ℕ → ℕ → ℕ

/-- Oracle for a whole `_local_search_fast` call, one `LSChoice` per inner
iteration. -/
abbrev LSOracle := ℕ → LSChoice

/-- The day loop of `_local_search_fast` (metaheuristics_NEW.py:415-429):
set the sampled day, keep the move if the penalized objective improves by
more than the `1e-9` tolerance (first improvement), otherwise restore the
previous day and try the next sampled day. -/
def lsTryDays (data : PatientAllocationData) (lambda1 lambda2 penalty_weight : ℚ)
    (pid baseDay : ℕ) (curr : Alloc) (curr_val : ℚ) :
    List ℕ → Option (Alloc × ℚ)
  | [] => none
  | d :: rest =>
    if d = baseDay then lsTryDays data lambda1 lambda2 penalty_weight pid baseDay curr curr_val rest
    else
      let trial := dictSet curr pid ⟨(dictGetD curr pid default).ward, d⟩
      let val := objective_value_penalized data trial lambda1 lambda2 penalty_weight
      if val + 1/1000000000 < curr_val then some (trial, val)
      else lsTryDays data lambda1 lambda2 penalty_weight pid baseDay curr curr_val rest

/-- The sampled-patient loop of `_local_search_fast`
(metaheuristics_NEW.py:404-432): a time check before each patient, then the
day loop; the first improving move ends the loop (`none` means the loop
finished, or timed out, with no improvement). -/
def lsPatients (data : PatientAllocationData) (lambda1 lambda2 penalty_weight : ℚ)
    (ch : LSChoice) (daysCount : ℕ) :
    List ℕ → ℕ → Alloc → ℚ → Option (Alloc × ℚ)
  | [], _, _, _ => none
  | pid :: rest, j, curr, curr_val =>
    if ch.timeIn j then none
    else
      let p := dictGetD data.patients pid default
      let base := dictGetD curr pid default
      let possible_days := rangeFT p.earliest (min (p.latest + 1) data.num_days)
      let days_to_try := sampleIdx possible_days (min daysCount possible_days.length) (ch.dayPick j)
      match lsTryDays data lambda1 lambda2 penalty_weight pid base.day curr curr_val days_to_try with
      | some res => some res
      | none => lsPatients data lambda1 lambda2 penalty_weight ch daysCount rest (j + 1) curr curr_val

/-- The bounded `while` loop of `_local_search_fast`
(metaheuristics_NEW.py:393-435): stop at the iteration bound, on the
time budget, or after a full pass with no improvement. -/
def lsLoop (data : PatientAllocationData) (lambda1 lambda2 penalty_weight : ℚ)
    (O : LSOracle) (sampleCount daysCount : ℕ) :
    ℕ → ℕ → Alloc → ℚ → Alloc × ℚ
  | 0, _, curr, curr_val => (curr, curr_val)
  | n + 1, i, curr, curr_val =>
    if (O i).timeTop then (curr, curr_val)
    else
      let keys := data.patients.map Prod.fst
      let pids_sample := sampleIdx keys (min sampleCount keys.length) (O i).pick
      match lsPatients data lambda1 lambda2 penalty_weight (O i) daysCount pids_sample 0 curr curr_val with
      | some (curr', val') => lsLoop data lambda1 lambda2 penalty_weight O sampleCount daysCount n (i + 1) curr' val'
      | none => (curr, curr_val)

/-- The `IteratedLocalSearch` configuration (metaheuristics_NEW.py:333-345):
the constructor arguments. -/
structure IteratedLocalSearch where
  data : PatientAllocationData
  lambda1 : ℚ
  lambda2 : ℚ
  penalty_weight : ℚ

/-- `self.STAGNATION_LIMIT` (metaheuristics_NEW.py:343). -/
def IteratedLocalSearch.STAGNATION_LIMIT : ℕ := 20

/-- `self.PERTURB_BASE_RATIO = 0.10` (metaheuristics_NEW.py:344), as an exact
rational (the name avoids an upper-case suffix for syntactic reasons). -/
def IteratedLocalSearch.perturb_base_ratio : ℚ := 1/10

/-- `self.PERTURB_MAX_RATIO = 0.25` (metaheuristics_NEW.py:345). -/
def IteratedLocalSearch.perturb_max_ratio : ℚ := 1/4

/-- Oracle for one `_perturbation_mixed` call: picks for the random patient
sample and, per perturbed patient, the ward choice and the day draw. -/
structure PerturbChoice where
  samplePick : ℕ → ℕ
  wardPick : ℕ → ℕ
  dayPick : ℕ → ℕ

/-- `IteratedLocalSearch._perturbation_mixed` (metaheuristics_NEW.py:347):
perturb `max(1, int(n*intensity))` patients — half drawn at random, half the
worst delay contributors — each reassigned to a random compatible ward and a
random window day clipped to the horizon.  The delay score uses truncated
`ℕ` subtraction, which equals the source's `max(0, day - earliest)`. -/
def IteratedLocalSearch.perturbTargets (self : IteratedLocalSearch)
    (ch : PerturbChoice) (allocation : Alloc) (intensity : ℚ) : List ℕ :=
  let num_to_perturb := max 1 (pyFloor ((self.data.patients.length : ℚ) * intensity))
  let worst_pids :=
    pySort (fun x y => decide (y.1 < x.1) || (decide ((y : ℕ × ℕ).1 = x.1) && decide (y.2 ≤ x.2)))
      (self.data.patients.map (fun pv =>
        ((dictGetD allocation pv.1 default).day - pv.2.earliest, pv.1)))
  let worst_contributors := (worst_pids.take (num_to_perturb / 2)).map Prod.snd
  let num_random := num_to_perturb / 2
  let patients_random := sampleIdx (self.data.patients.map Prod.fst) num_random ch.samplePick
  patients_random ++ worst_contributors

/-- The reassignment loop of `_perturbation_mixed` over the selected mix. -/
def IteratedLocalSearch.perturbApply (self : IteratedLocalSearch) (ch : PerturbChoice)
    (allocation : Alloc) (targets : List ℕ) : Alloc :=
  targets.enum.foldl
    (fun perturbed iv =>
      let p := dictGetD self.data.patients iv.2 default
      let wards := compatible_wards_for_patient self.data p
      let new_ward := pyChoice wards (ch.wardPick iv.1)
      let new_day := pyRandint p.earliest (min p.latest (self.data.num_days - 1)) (ch.dayPick iv.1)
      dictSet perturbed iv.2 ⟨new_ward, new_day⟩)
    allocation

/-- The body of `_perturbation_mixed`, split into the target selection
(`perturbTargets`: the random half of `max(1, int(n*intensity))` plus the
worst delay contributors) and the reassignment loop (`perturbApply`). -/
def IteratedLocalSearch._perturbation_mixed (self : IteratedLocalSearch)
    (ch : PerturbChoice) (allocation : Alloc) (intensity : ℚ) : Alloc :=
  self.perturbApply ch allocation (self.perturbTargets ch allocation intensity)

/-- `IteratedLocalSearch._local_search_fast` (metaheuristics_NEW.py:376):
at most 10 inner iterations, sampling `max(10, int(0.3 n))` patients and 3
window days per patient (the sample sizes are the exact-arithmetic values of
the source's float expressions). -/
def IteratedLocalSearch._local_search_fast (self : IteratedLocalSearch)
    (O : LSOracle) (allocation : Alloc) : Alloc × ℚ :=
  lsLoop self.data self.lambda1 self.lambda2 self.penalty_weight O
    (max 10 (3 * self.data.patients.length / 10)) 3 10 0 allocation
    (objective_value_penalized self.data allocation self.lambda1 self.lambda2 self.penalty_weight)

/-- The loop state of `IteratedLocalSearch.solve`; `perturb_log` is ghost
instrumentation recording the intensity of every perturbation performed (it
influences nothing), and `stopped` records that the Python loop has been
left by `break`. -/
structure ILSState where
  current : Alloc
  best_feasible_value : ℚ
  best_feasible_allocation : Alloc
  no_improve_counter : ℕ
  stopped : Bool
  perturb_log : List ℚ

/-- Oracle for one iteration of `IteratedLocalSearch.solve`: the timeout test
at the top of the loop, the inner local-search oracle and the perturbation
oracle. -/
structure ILSChoice where
  timeUp : Bool
  ls : LSOracle
  perturb : PerturbChoice

/-- One iteration of the `IteratedLocalSearch.solve` loop
(metaheuristics_NEW.py:463-499): timeout check; fast local search; adopt the
result as new best when it is bed-feasible and beats the best value by more
than `1e-9` (resetting the stagnation counter, otherwise incrementing it);
at `STAGNATION_LIMIT`, perturb the best-known allocation and reset the
counter; the final early-stop test mirrors the source's (unreachable)
`counter ≥ 2·STAGNATION_LIMIT` break. -/
def IteratedLocalSearch.step (self : IteratedLocalSearch) (O : ℕ → ILSChoice)
    (i : ℕ) (s : ILSState) : ILSState :=
  if s.stopped then s
  else if (O i).timeUp then { s with stopped := true }
  else
    let current := (self._local_search_fast (O i).ls s.current).1
    let upd :=
      if feasible_after_change_beds self.data current none then
        let curr_val := objective_value self.data current self.lambda1 self.lambda2
        if curr_val + 1/1000000000 < s.best_feasible_value then
          (curr_val, s.best_feasible_allocation, 0, true)
        else (s.best_feasible_value, s.best_feasible_allocation, s.no_improve_counter + 1, false)
      else (s.best_feasible_value, s.best_feasible_allocation, s.no_improve_counter + 1, false)
    let best_val := upd.1
    let best_alloc := if upd.2.2.2 then current else upd.2.1
    let counter := upd.2.2.1
    if counter ≥ IteratedLocalSearch.STAGNATION_LIMIT then
      let intensity := min IteratedLocalSearch.perturb_max_ratio
        (IteratedLocalSearch.perturb_base_ratio *
          (1 + (counter : ℚ) / (IteratedLocalSearch.STAGNATION_LIMIT : ℚ)))
      { current := self._perturbation_mixed (O i).perturb best_alloc intensity,
        best_feasible_value := best_val, best_feasible_allocation := best_alloc,
        no_improve_counter := 0, stopped := false,
        perturb_log := s.perturb_log ++ [intensity] }
    else
      { current := current, best_feasible_value := best_val,
        best_feasible_allocation := best_alloc, no_improve_counter := counter,
        stopped := decide (counter ≥ IteratedLocalSearch.STAGNATION_LIMIT * 2),
        perturb_log := s.perturb_log }

/-- The state after `n` iterations of the `IteratedLocalSearch.solve` loop
(once `stopped` is set, further iterations change nothing, so the state at
the iteration bound is the state the Python loop ends in). -/
def IteratedLocalSearch.stateAt (self : IteratedLocalSearch) (O : ℕ → ILSChoice)
    (s0 : ILSState) : ℕ → ILSState
  | 0 => s0
  | n + 1 => self.step O n (self.stateAt O s0 n)

/-- The result record of `IteratedLocalSearch.solve` and
`VariableNeighborhoodSearch.solve` (the wall-clock `solve_time` entry is not
modelled). -/
structure SearchResult where
  objective_value : ℚ
  allocation : Alloc

/-- `IteratedLocalSearch.solve` (metaheuristics_NEW.py:439): the feasibility
guard on the start allocation (its `ValueError` modelled as `.error ()`),
then the bounded iteration loop. -/
def IteratedLocalSearch.solve (self : IteratedLocalSearch) (O : ℕ → ILSChoice)
    (start_allocation : Alloc) (max_iterations : ℕ) : Except Unit SearchResult :=
  if feasible_after_change_beds self.data start_allocation none then
    let s0 : ILSState :=
      { current := start_allocation,
        best_feasible_value := objective_value self.data start_allocation self.lambda1 self.lambda2,
        best_feasible_allocation := start_allocation,
        no_improve_counter := 0, stopped := false, perturb_log := [] }
    let sf := self.stateAt O s0 max_iterations
    .ok { objective_value := sf.best_feasible_value,
          allocation := sf.best_feasible_allocation }
  else .error ()

/-! ## `metaheuristics_NEW.py` — Variable Neighborhood Search -/

/-- The `VariableNeighborhoodSearch` configuration
(metaheuristics_NEW.py:519-529). -/
structure VariableNeighborhoodSearch where
  data : PatientAllocationData
  lambda1 : ℚ
  lambda2 : ℚ
  penalty_weight : ℚ

/-- `self.K_MAX` (metaheuristics_NEW.py:529). -/
def VariableNeighborhoodSearch.K_MAX : ℕ := 4

/-- Oracle for one `_shake` call: patient picks (also driving the 2-element
samples of N3/N4), the shift index of N1, ward choices, day draws and the
day-or-ward coin flips of N3. -/
structure ShakeChoice where
  pidPick : ℕ → ℕ
  shiftIdx : ℕ
  wardPick : ℕ → ℕ
  dayPick : ℕ → ℕ
  coin : ℕ → ℚ

/-- `_shake_N1` (metaheuristics_NEW.py:531): shift one random patient's day
by a random offset in `{-2,-1,1,2}` when the result stays inside the window
and the horizon. -/
def VariableNeighborhoodSearch._shake_N1 (self : VariableNeighborhoodSearch)
    (ch : ShakeChoice) (allocation : Alloc) : Alloc :=
  let pid := pyChoice (self.data.patients.map Prod.fst) (ch.pidPick 0)
  let p := dictGetD self.data.patients pid default
  let current_day := ((dictGetD allocation pid default).day : ℤ)
  let shift := pyChoice ([-2, -1, 1, 2] : List ℤ) ch.shiftIdx
  let new_day := current_day + shift
  if (p.earliest : ℤ) ≤ new_day ∧ new_day ≤ (min p.latest (self.data.num_days - 1) : ℤ) then
    dictSet allocation pid ⟨(dictGetD allocation pid default).ward, new_day.toNat⟩
  else allocation

/-- `_shake_N2` (metaheuristics_NEW.py:543): move one random patient to a
random different compatible ward, when it has more than one. -/
def VariableNeighborhoodSearch._shake_N2 (self : VariableNeighborhoodSearch)
    (ch : ShakeChoice) (allocation : Alloc) : Alloc :=
  let pid := pyChoice (self.data.patients.map Prod.fst) (ch.pidPick 0)
  let p := dictGetD self.data.patients pid default
  let wards := compatible_wards_for_patient self.data p
  if wards.length > 1 then
    let new_ward := pyChoice (wards.filter (fun w => decide (w ≠ (dictGetD allocation pid default).ward))) (ch.wardPick 0)
    dictSet allocation pid ⟨new_ward, (dictGetD allocation pid default).day⟩
  else allocation

/-- `_shake_N3` (metaheuristics_NEW.py:553): for two sampled patients, a coin
flip decides between a random window day and a random compatible ward
(chosen among all compatible wards, possibly the current one). -/
def VariableNeighborhoodSearch._shake_N3 (self : VariableNeighborhoodSearch)
    (ch : ShakeChoice) (allocation : Alloc) : Alloc :=
  let pids_to_move := sampleIdx (self.data.patients.map Prod.fst)
    (min 2 self.data.patients.length) ch.pidPick
  pids_to_move.enum.foldl
    (fun shaken iv =>
      let p := dictGetD self.data.patients iv.2 default
      if ch.coin iv.1 < 1/2 then
        let new_day := pyRandint p.earliest (min p.latest (self.data.num_days - 1)) (ch.dayPick iv.1)
        dictSet shaken iv.2 ⟨(dictGetD shaken iv.2 default).ward, new_day⟩
      else
        let wards := compatible_wards_for_patient self.data p
        if wards.length > 1 then
          dictSet shaken iv.2 ⟨pyChoice wards (ch.wardPick iv.1), (dictGetD shaken iv.2 default).day⟩
        else shaken)
    allocation

/-- `_shake_N4` (metaheuristics_NEW.py:568): swap the full (ward, day)
assignments of two sampled patients, only when each ward is compatible with
the other patient and each day lies in the other patient's clipped window. -/
def VariableNeighborhoodSearch._shake_N4 (self : VariableNeighborhoodSearch)
    (ch : ShakeChoice) (allocation : Alloc) : Alloc :=
  if self.data.patients.length ≥ 2 then
    let pids := sampleIdx (self.data.patients.map Prod.fst) 2 ch.pidPick
    let p1_id := pids.getD 0 0
    let p2_id := pids.getD 1 0
    let p1 := dictGetD self.data.patients p1_id default
    let p2 := dictGetD self.data.patients p2_id default
    let a1 := dictGetD allocation p1_id default
    let a2 := dictGetD allocation p2_id default
    let p1_wards := compatible_wards_for_patient self.data p1
    let p2_wards := compatible_wards_for_patient self.data p2
    if p1_wards.contains a2.ward ∧ p2_wards.contains a1.ward ∧
        p1.earliest ≤ a2.day ∧ a2.day ≤ min p1.latest (self.data.num_days - 1) ∧
        p2.earliest ≤ a1.day ∧ a1.day ≤ min p2.latest (self.data.num_days - 1) then
      dictSet (dictSet allocation p1_id ⟨a2.ward, a2.day⟩) p2_id ⟨a1.ward, a1.day⟩
    else allocation
  else allocation

/-- `_shake` (metaheuristics_NEW.py:586): dispatch on the neighborhood
index. -/
def VariableNeighborhoodSearch._shake (self : VariableNeighborhoodSearch)
    (ch : ShakeChoice) (allocation : Alloc) (k : ℕ) : Alloc :=
  if k = 1 then self._shake_N1 ch allocation
  else if k = 2 then self._shake_N2 ch allocation
  else if k = 3 then self._shake_N3 ch allocation
  else self._shake_N4 ch allocation

/-- `VariableNeighborhoodSearch._local_search_fast`
(metaheuristics_NEW.py:596): the same loop as the ILS one, with at most 5
inner iterations, `max(10, int(0.2 n))` sampled patients and 2 sampled days
per patient. -/
def VariableNeighborhoodSearch._local_search_fast (self : VariableNeighborhoodSearch)
    (O : LSOracle) (allocation : Alloc) : Alloc × ℚ :=
  lsLoop self.data self.lambda1 self.lambda2 self.penalty_weight O
    (max 10 (self.data.patients.length / 5)) 2 5 0 allocation
    (objective_value_penalized self.data allocation self.lambda1 self.lambda2 self.penalty_weight)

/-- The loop state of `VariableNeighborhoodSearch.solve`; `stopped` records
that the Python `while` loop has been left by `break`. -/
structure VNSState where
  current : Alloc
  best_feasible_value : ℚ
  best_feasible_allocation : Alloc
  k : ℕ
  stopped : Bool

/-- Oracle for one iteration of `VariableNeighborhoodSearch.solve`. -/
structure VNSChoice where
  timeUp : Bool
  shake : ShakeChoice
  ls : LSOracle

/-- The local-search result of one VNS iteration: the shake of the current
allocation with neighborhood `k` followed by the fast local search
(metaheuristics_NEW.py:680-681). -/
def VariableNeighborhoodSearch.candidate (self : VariableNeighborhoodSearch)
    (ch : VNSChoice) (s : VNSState) : Alloc :=
  (self._local_search_fast ch.ls (self._shake ch.shake s.current s.k)).1

/-- Whether one VNS iteration adopts its candidate: it must be bed-feasible
and beat the best value by more than the `1e-9` tolerance
(metaheuristics_NEW.py:683-686). -/
def VariableNeighborhoodSearch.improves (self : VariableNeighborhoodSearch)
    (ch : VNSChoice) (s : VNSState) : Bool :=
  feasible_after_change_beds self.data (self.candidate ch s) none &&
    decide (objective_value self.data (self.candidate ch s) self.lambda1 self.lambda2
      + 1/1000000000 < s.best_feasible_value)

/-- One iteration of the `VariableNeighborhoodSearch.solve` loop
(metaheuristics_NEW.py:672-705): timeout check; shake with neighborhood `k`
and fast local search; on a feasible improving result adopt it and reset
`k := 1`, otherwise keep the state and increment `k`; finally wrap `k` back
to 1 when it exceeds `K_MAX`. -/
def VariableNeighborhoodSearch.step (self : VariableNeighborhoodSearch)
    (O : ℕ → VNSChoice) (i : ℕ) (s : VNSState) : VNSState :=
  if s.stopped then s
  else if (O i).timeUp then { s with stopped := true }
  else
    let improved_solution := self.candidate (O i) s
    let next :=
      if self.improves (O i) s then
        { current := improved_solution,
          best_feasible_value := objective_value self.data improved_solution self.lambda1 self.lambda2,
          best_feasible_allocation := improved_solution,
          k := 1, stopped := false }
      else { s with k := s.k + 1 }
    if next.k > VariableNeighborhoodSearch.K_MAX then { next with k := 1 } else next

/-- The state after `n` iterations of the `VariableNeighborhoodSearch.solve`
loop. -/
def VariableNeighborhoodSearch.stateAt (self : VariableNeighborhoodSearch)
    (O : ℕ → VNSChoice) (s0 : VNSState) : ℕ → VNSState
  | 0 => s0
  | n + 1 => self.step O n (self.stateAt O s0 n)

/-- `VariableNeighborhoodSearch.solve` (metaheuristics_NEW.py:649): the
feasibility guard on the start allocation (its `ValueError` modelled as
`.error ()`), then the bounded loop with `k` starting at 1. -/
def VariableNeighborhoodSearch.solve (self : VariableNeighborhoodSearch)
    (O : ℕ → VNSChoice) (start_allocation : Alloc) (max_iterations : ℕ) :
    Except Unit SearchResult :=
  if feasible_after_change_beds self.data start_allocation none then
    let s0 : VNSState :=
      { current := start_allocation,
        best_feasible_value := objective_value self.data start_allocation self.lambda1 self.lambda2,
        best_feasible_allocation := start_allocation,
        k := 1, stopped := false }
    let sf := self.stateAt O s0 max_iterations
    .ok { objective_value := sf.best_feasible_value,
          allocation := sf.best_feasible_allocation }
  else .error ()

/-! ## `metaheuristics.py` — Solution, Simulated Annealing, Tabu Search

The original module duplicates the evaluator logic inline inside the
`Solution` class; it is translated here separately, following that file. -/

/-- The `Solution` record (metaheuristics.py:13-20): an allocation, the
cached objective (`float('inf')` modelled as `⊤`) and the cached feasibility
flag.  `Solution.copy` is a deep copy in Python and the identity here. -/
structure Solution where
  allocation : Alloc
  objective_value : WithTop ℚ
  feasible : Bool
deriving DecidableEq

/-- `Solution._check_feasibility` (metaheuristics.py:52): completeness of the
allocation, admission windows, bed capacities (with carryover) and
ward-specialization compatibility. -/
def Solution._check_feasibility (data : PatientAllocationData) (allocation : Alloc) : Bool :=
  decide (allocation.length = data.patients.length) &&
  allocation.all (fun kv =>
    let patient := dictGetD data.patients kv.1 default
    decide (patient.earliest ≤ kv.2.day ∧ kv.2.day ≤ patient.latest)) &&
  data.wards.all (fun wv =>
    (List.range data.num_days).all (fun d =>
      decide (
        (allocation.foldl
          (fun cnt kv =>
            if kv.2.ward = wv.1 then
              let patient := dictGetD data.patients kv.1 default
              if kv.2.day ≤ d ∧ d < kv.2.day + patient.los then cnt + 1 else cnt
            else cnt)
          (wv.2.carryover_patients.getD d 0))
        ≤ wv.2.bed_capacity))) &&
  allocation.all (fun kv =>
    let patient := dictGetD data.patients kv.1 default
    let ward := dictGetD data.wards kv.2.ward default
    decide (patient.specialization = ward.major_specialization) ||
      ward.minor_specializations.contains patient.specialization)

/-- `Solution._calculate_operational_cost` (metaheuristics.py:94): weighted
delays (here a signed subtraction, as in the source, although only window-
feasible allocations reach it) plus weighted overtime and undertime per
specialization and day. -/
def Solution._calculate_operational_cost (data : PatientAllocationData)
    (allocation : Alloc) : ℚ :=
  let cost :=
    allocation.foldl
      (fun cost kv =>
        let patient := dictGetD data.patients kv.1 default
        cost + data.weight_delay * ((kv.2.day : ℚ) - (patient.earliest : ℚ)))
      0
  data.specialisms.foldl
    (fun cost sv =>
      (List.range data.num_days).foldl
        (fun cost d =>
          let ot_used :=
            allocation.foldl
              (fun t kv =>
                let patient := dictGetD data.patients kv.1 default
                if patient.specialization = sv.1 ∧ kv.2.day = d then t + patient.surgery_duration
                else t)
              0
          let ot_available := sv.2.ot_time.getD d 0
          if ot_used > ot_available then cost + data.weight_overtime * (ot_used - ot_available)
          else cost + data.weight_undertime * (ot_available - ot_used))
        cost)
    cost

/-- `Solution._calculate_workload_balance` (metaheuristics.py:126): maximum
normalized ward-day workload.  The source indexes the workload profile and
divides by the workload capacity without guards; the data invariant
(profile length at least the length of stay, positive capacity) keeps those
operations defined there, and this translation uses the total `getD`/`ℚ`
division at the same spots. -/
def Solution._calculate_workload_balance (data : PatientAllocationData)
    (allocation : Alloc) : ℚ :=
  data.wards.foldl
    (fun max_workload wv =>
      (List.range data.num_days).foldl
        (fun max_workload d =>
          let total :=
            allocation.foldl
              (fun t kv =>
                if kv.2.ward = wv.1 then
                  let patient := dictGetD data.patients kv.1 default
                  if kv.2.day ≤ d ∧ d < kv.2.day + patient.los then
                    let workload := patient.workload_per_day.getD (d - kv.2.day) 0
                    let workload :=
                      if patient.specialization ≠ wv.2.major_specialization ∧
                          wv.2.minor_specializations.contains patient.specialization then
                        workload *
                          (dictGetD data.specialisms patient.specialization default).workload_factor
                      else workload
                    t + workload
                  else t
                else t)
              (wv.2.carryover_workload.getD d 0)
          max max_workload (total / wv.2.workload_capacity))
        max_workload)
    0

/-- `Solution.evaluate` (metaheuristics.py:30): infeasible allocations get
objective `⊤` and `feasible = false`; feasible ones get the finite
scalarized objective and `feasible = true`. -/
def Solution.evaluate (data : PatientAllocationData) (allocation : Alloc)
    (lambda1 lambda2 : ℚ) : Solution :=
  if ¬ Solution._check_feasibility data allocation then
    { allocation := allocation, objective_value := ⊤, feasible := false }
  else
    { allocation := allocation,
      objective_value :=
        ((lambda1 * Solution._calculate_operational_cost data allocation +
          lambda2 * Solution._calculate_workload_balance data allocation : ℚ) : WithTop ℚ),
      feasible := true }

/-- The `SimulatedAnnealing` configuration (metaheuristics.py:166-172). -/
structure SimulatedAnnealing where
  data : PatientAllocationData
  lambda1 : ℚ
  lambda2 : ℚ

/-- The patient order of `_generate_initial_solution` (metaheuristics.py:179):
window width ascending then earliest day ascending, stable. -/
def saInitLE (a b : ℕ × Patient) : Bool :=
  decide (a.2.latest - a.2.earliest < b.2.latest - b.2.earliest) ||
  (decide (a.2.latest - a.2.earliest = b.2.latest - b.2.earliest) &&
    decide (a.2.earliest ≤ b.2.earliest))

/-- The ward loop of `_generate_initial_solution` (metaheuristics.py:201-207):
each candidate ward is written into the allocation and kept only if the full
feasibility check passes; note that failed tries leave the last written
assignment in place, exactly as the Python code does. -/
def saInitTryWards (data : PatientAllocationData) (pid d : ℕ) :
    List ℕ → Alloc → Alloc × Bool
  | [], alloc => (alloc, false)
  | w :: ws, alloc =>
    let alloc' := dictSet alloc pid ⟨w, d⟩
    if Solution._check_feasibility data alloc' then (alloc', true)
    else saInitTryWards data pid d ws alloc'

/-- The day loop of `_generate_initial_solution` (metaheuristics.py:197-210). -/
def saInitTryDays (data : PatientAllocationData) (pid : ℕ) (wards : List ℕ) :
    List ℕ → Alloc → Alloc × Bool
  | [], alloc => (alloc, false)
  | d :: ds, alloc =>
    let res := saInitTryWards data pid d wards alloc
    if res.2 then res else saInitTryDays data pid wards ds res.1

/-- `SimulatedAnnealing._generate_initial_solution` (metaheuristics.py:174):
place each patient at the first (day, compatible ward) passing the full
feasibility check — which, on a partial allocation, never passes because of
the completeness check — and otherwise force the first compatible ward at
the earliest day; finally evaluate. -/
def SimulatedAnnealing._generate_initial_solution (self : SimulatedAnnealing) : Solution :=
  let alloc :=
    (pySort saInitLE self.data.patients).foldl
      (fun alloc pv =>
        let compatible_wards :=
          (self.data.wards.filter
            (fun wv =>
              decide (pv.2.specialization = wv.2.major_specialization) ||
              wv.2.minor_specializations.contains pv.2.specialization)).map Prod.fst
        let days := (rangeFT pv.2.earliest (pv.2.latest + 1)).takeWhile
          (fun d => decide (d < self.data.num_days))
        let res := saInitTryDays self.data pv.1 compatible_wards days alloc
        if res.2 then res.1
        else dictSet res.1 pv.1 ⟨compatible_wards.headD 0, pv.2.earliest⟩)
      []
  Solution.evaluate self.data alloc self.lambda1 self.lambda2

/-- Oracle for one `_get_neighbor` call and the subsequent acceptance draw:
the patient pick, the operation pick, the day/ward/second-patient picks,
and the `random.random()` draw `r`. -/
structure SAChoice where
  pidIdx : ℕ
  opIdx : ℕ
  dayIdx : ℕ
  wardIdx : ℕ
  pid2Idx : ℕ
  r : ℚ

/-- `SimulatedAnnealing._get_neighbor` (metaheuristics.py:222): one of three
uniform move types — a random window day (kept only if inside the horizon),
a random different compatible ward (when one exists), or a swap of two
random patients' days — followed by re-evaluation. -/
def SimulatedAnnealing._get_neighbor (self : SimulatedAnnealing) (ch : SAChoice)
    (solution : Solution) : Solution :=
  let keys := solution.allocation.map Prod.fst
  let patient_id := pyChoice keys ch.pidIdx
  let patient := dictGetD self.data.patients patient_id default
  let op := ch.opIdx % 3
  let alloc :=
    if op = 0 then
      let new_day := pyRandint patient.earliest patient.latest ch.dayIdx
      if new_day < self.data.num_days then
        dictSet solution.allocation patient_id
          ⟨(dictGetD solution.allocation patient_id default).ward, new_day⟩
      else solution.allocation
    else if op = 1 then
      let compatible_wards :=
        (self.data.wards.filter
          (fun wv =>
            decide (patient.specialization = wv.2.major_specialization) ||
            wv.2.minor_specializations.contains patient.specialization)).map Prod.fst
      if compatible_wards.length > 1 then
        let current_ward := (dictGetD solution.allocation patient_id default).ward
        dictSet solution.allocation patient_id
          ⟨pyChoice (compatible_wards.erase current_ward) ch.wardIdx,
           (dictGetD solution.allocation patient_id default).day⟩
      else solution.allocation
    else
      let patient_id2 := pyChoice keys ch.pid2Idx
      if patient_id ≠ patient_id2 then
        let day1 := (dictGetD solution.allocation patient_id default).day
        let day2 := (dictGetD solution.allocation patient_id2 default).day
        dictSet
          (dictSet solution.allocation patient_id
            ⟨(dictGetD solution.allocation patient_id default).ward, day2⟩)
          patient_id2
          ⟨(dictGetD solution.allocation patient_id2 default).ward, day1⟩
      else solution.allocation
  Solution.evaluate self.data alloc self.lambda1 self.lambda2

/-- The acceptance test of the SA loop (metaheuristics.py:294-296):
`delta < 0 or (temperature > 0 and random.random() < exp(-delta/temperature))`
with `delta = neighbor - current` computed on IEEE floats.  The four cases
spell out the float semantics when an objective is `inf`: `inf - inf` is
`nan`, whose comparisons are all false; `finite - inf = -inf < 0` accepts;
`inf - finite = inf` makes `exp(-inf/T) = 0.0`, so the test is `r < 0`.
`e` stands for `math.exp` on the finite arguments. -/
def saAccept (e : ℚ → ℚ) (r : ℚ) (currObj neighborObj : WithTop ℚ)
    (temperature : ℚ) : Bool :=
  match currObj, neighborObj with
  | Option.some c, Option.some n =>
    decide (n - c < 0) || (decide (0 < temperature) && decide (r < e (-(n - c) / temperature)))
  | Option.none, Option.some _ => true
  | Option.some _, Option.none => decide (0 < temperature) && decide (r < 0)
  | Option.none, Option.none => false

/-- The loop state of `SimulatedAnnealing.solve`; `stopped` records that the
temperature floor `break` has fired. -/
structure SAState where
  current : Solution
  best_solution : Solution
  temperature : ℚ
  stopped : Bool

/-- One iteration of the `SimulatedAnnealing.solve` loop
(metaheuristics.py:289-310): generate a neighbor, accept it by the
temperature rule, update the tracked best inside the acceptance branch on a
strictly smaller objective, decay the temperature geometrically, and stop
once it falls below the `0.01` floor. -/
def SimulatedAnnealing.step (self : SimulatedAnnealing) (e : ℚ → ℚ)
    (O : ℕ → SAChoice) (cooling_rate : ℚ) (i : ℕ) (s : SAState) : SAState :=
  if s.stopped then s
  else
    let neighbor := self._get_neighbor (O i) s.current
    let accepted := saAccept e (O i).r s.current.objective_value neighbor.objective_value
      s.temperature
    let current := if accepted then neighbor else s.current
    let best :=
      if accepted && decide (current.objective_value < s.best_solution.objective_value) then
        current
      else s.best_solution
    let temperature := s.temperature * cooling_rate
    { current := current, best_solution := best, temperature := temperature,
      stopped := decide (temperature < 1/100) }

/-- The state after `n` iterations of the `SimulatedAnnealing.solve` loop. -/
def SimulatedAnnealing.stateAt (self : SimulatedAnnealing) (e : ℚ → ℚ)
    (O : ℕ → SAChoice) (cooling_rate : ℚ) (s0 : SAState) : ℕ → SAState
  | 0 => s0
  | n + 1 => self.step e O cooling_rate n (self.stateAt e O cooling_rate s0 n)

/-- The result record of `SimulatedAnnealing.solve` and `TabuSearch.solve`
(metaheuristics.py:319-324 and 400-405; `solve_time` is not modelled). -/
structure SAResult where
  objective_value : WithTop ℚ
  solution : Alloc
  feasible : Bool

/-- `SimulatedAnnealing.solve` (metaheuristics.py:263): start from the
greedy initial solution (also the initial best) and iterate. -/
def SimulatedAnnealing.solve (self : SimulatedAnnealing) (e : ℚ → ℚ)
    (O : ℕ → SAChoice) (max_iterations : ℕ) (initial_temp cooling_rate : ℚ) : SAResult :=
  let current := self._generate_initial_solution
  let s0 : SAState :=
    { current := current, best_solution := current, temperature := initial_temp,
      stopped := false }
  let sf := self.stateAt e O cooling_rate s0 max_iterations
  { objective_value := sf.best_solution.objective_value,
    solution := sf.best_solution.allocation,
    feasible := sf.best_solution.feasible }

/-- The `TabuSearch` configuration (metaheuristics.py:330-336). -/
structure TabuSearch where
  data : PatientAllocationData
  lambda1 : ℚ
  lambda2 : ℚ

/-- The loop state of `TabuSearch.solve`: the tabu list holds the serialized
allocations (`str(allocation)`, modelled by the allocation itself, whose
equality matches equality of the serialization). -/
structure TabuState where
  current : Solution
  best_solution : Solution
  tabu_list : List Alloc

/-- One iteration of the `TabuSearch.solve` loop (metaheuristics.py:364-392):
generate 20 neighbors with the SA move kit, sort them by objective, take the
first one that is not tabu or that beats the best objective (aspiration);
append its allocation to the tabu list, evicting the oldest entry past the
tenure, and update the tracked best on a strictly smaller objective.  When
every neighbor is rejected the iteration changes nothing. -/
def TabuSearch.step (self : TabuSearch) (O : ℕ → ℕ → SAChoice) (tabu_tenure : ℕ)
    (i : ℕ) (s : TabuState) : TabuState :=
  let sa : SimulatedAnnealing := ⟨self.data, self.lambda1, self.lambda2⟩
  let neighbors := (List.range 20).map (fun j => sa._get_neighbor (O i j) s.current)
  let sorted := pySort (fun a b => decide (a.objective_value ≤ b.objective_value)) neighbors
  match sorted.find?
      (fun neighbor =>
        !(decide (neighbor.allocation ∈ s.tabu_list)) ||
        decide (neighbor.objective_value < s.best_solution.objective_value)) with
  | none => s
  | some neighbor =>
    let tabu1 := s.tabu_list ++ [neighbor.allocation]
    let tabu2 := if tabu1.length > tabu_tenure then tabu1.drop 1 else tabu1
    let best :=
      if neighbor.objective_value < s.best_solution.objective_value then neighbor
      else s.best_solution
    { current := neighbor, best_solution := best, tabu_list := tabu2 }

/-- The state after `n` iterations of the `TabuSearch.solve` loop. -/
def TabuSearch.stateAt (self : TabuSearch) (O : ℕ → ℕ → SAChoice)
    (tabu_tenure : ℕ) (s0 : TabuState) : ℕ → TabuState
  | 0 => s0
  | n + 1 => self.step O tabu_tenure n (self.stateAt O tabu_tenure s0 n)

/-- `TabuSearch.solve` (metaheuristics.py:338): seed from the SA greedy
initial solution and iterate with an empty tabu list. -/
def TabuSearch.solve (self : TabuSearch) (O : ℕ → ℕ → SAChoice)
    (max_iterations tabu_tenure : ℕ) : SAResult :=
  let sa : SimulatedAnnealing := ⟨self.data, self.lambda1, self.lambda2⟩
  let current := sa._generate_initial_solution
  let s0 : TabuState := { current := current, best_solution := current, tabu_list := [] }
  let sf := self.stateAt O tabu_tenure s0 max_iterations
  { objective_value := sf.best_solution.objective_value,
    solution := sf.best_solution.allocation,
    feasible := sf.best_solution.feasible }

/-! ## Helper lemmas -/

/-- A fold that adds `h x` under a guard that is false exactly when `h x = 0`
is a plain sum. -/
theorem foldl_ite_add_eq_sum {α : Type} (h : α → ℕ) (P : α → Prop) [DecidablePred P]
    (hz : ∀ x, ¬ P x → h x = 0) (l : List α) (init : ℕ) :
    l.foldl (fun acc x => if P x then acc + h x else acc) init = init + (l.map h).sum := by
  induction l generalizing init with
  | nil => simp
  | cons x xs ih =>
    simp only [List.foldl_cons, List.map_cons, List.sum_cons]
    by_cases hx : P x
    · rw [if_pos hx, ih]; omega
    · rw [if_neg hx, ih, hz x hx]; omega

/-- A fold that adds `S x` at each step is a plain sum. -/
theorem foldl_add_eq_sum {α : Type} (S : α → ℕ) (l : List α) (init : ℕ) :
    l.foldl (fun acc x => acc + S x) init = init + (l.map S).sum := by
  induction l generalizing init with
  | nil => simp
  | cons x xs ih => simp only [List.foldl_cons, List.map_cons, List.sum_cons]; rw [ih]; omega

/-- `bed_capacity_violations` as a double sum of truncated excesses. -/
theorem bed_capacity_violations_eq_sum (data : PatientAllocationData) (allocation : Alloc) :
    bed_capacity_violations data allocation =
      (data.wards.map (fun wv =>
        ((List.range data.num_days).map (fun d =>
          count_beds_used_on_day data allocation wv.1 d - wv.2.bed_capacity)).sum)).sum := by
  unfold bed_capacity_violations
  have hinner : ∀ (wv : ℕ × Ward) (vio : ℕ),
      (List.range data.num_days).foldl
        (fun vio d =>
          let used := count_beds_used_on_day data allocation wv.1 d
          if used > wv.2.bed_capacity then vio + (used - wv.2.bed_capacity) else vio)
        vio =
      vio + ((List.range data.num_days).map (fun d =>
        count_beds_used_on_day data allocation wv.1 d - wv.2.bed_capacity)).sum := by
    intro wv vio
    exact foldl_ite_add_eq_sum
      (fun d => count_beds_used_on_day data allocation wv.1 d - wv.2.bed_capacity)
      (fun d => count_beds_used_on_day data allocation wv.1 d > wv.2.bed_capacity)
      (fun d hd => Nat.sub_eq_zero_of_le (Nat.le_of_not_lt hd))
      (List.range data.num_days) vio
  calc data.wards.foldl _ 0
      = data.wards.foldl (fun vio wv => vio +
          ((List.range data.num_days).map (fun d =>
            count_beds_used_on_day data allocation wv.1 d - wv.2.bed_capacity)).sum) 0 := by
        apply List.foldl_ext
        intro vio wv _
        exact hinner wv vio
    _ = _ := by
        rw [foldl_add_eq_sum]; omega

/-- `bed_capacity_violations` vanishes exactly when the capacity sweep of
`feasible_after_change_beds` passes. -/
theorem bed_capacity_violations_eq_zero_iff (data : PatientAllocationData)
    (allocation : Alloc) :
    bed_capacity_violations data allocation = 0 ↔
      feasible_after_change_beds data allocation none = true := by
  rw [bed_capacity_violations_eq_sum]
  show _ ↔ (data.wards.all (fun wv =>
    (List.range data.num_days).all (fun d =>
      decide (count_beds_used_on_day data allocation wv.1 d ≤ wv.2.bed_capacity))) = true)
  simp only [List.all_eq_true, decide_eq_true_eq]
  constructor
  · intro h wv hwv d hd
    have h1 := List.sum_eq_zero_iff.mp h _ (List.mem_map.mpr ⟨wv, hwv, rfl⟩)
    have h2 := List.sum_eq_zero_iff.mp h1 _
      (List.mem_map.mpr ⟨d, List.mem_range.mpr (List.mem_range.mp hd), rfl⟩)
    omega
  · intro h
    apply List.sum_eq_zero_iff.mpr
    intro s hs
    rcases List.mem_map.mp hs with ⟨wv, hwv, rfl⟩
    apply List.sum_eq_zero_iff.mpr
    intro x hx
    rcases List.mem_map.mp hx with ⟨d, hd, rfl⟩
    have := h wv hwv d hd
    omega

/-- A total allocation: pairwise-distinct patient keys that are exactly the
patient keys of the data (every patient mapped to exactly one (ward, day)). -/
def totalAllocation (data : PatientAllocationData) (allocation : Alloc) : Prop :=
  (allocation.map Prod.fst).Nodup ∧
  (∀ pid ∈ allocation.map Prod.fst, pid ∈ data.patients.map Prod.fst) ∧
  (∀ pid ∈ data.patients.map Prod.fst, pid ∈ allocation.map Prod.fst)

instance (data : PatientAllocationData) (allocation : Alloc) :
    Decidable (totalAllocation data allocation) := by
  unfold totalAllocation; infer_instance

/-- C1.  For every total allocation, `bed_capacity_violations` is the sum
over all ward-days of the positive part of (occupancy − bed capacity), and
it is zero exactly when the bed-capacity check of
`feasible_after_change_beds` passes; the penalized objective is at least the
plain objective, with equality exactly when there are no violations. -/
theorem C1_violations_and_penalized_objective (data : PatientAllocationData)
    (allocation : Alloc) (lambda1 lambda2 penalty_weight : ℚ)
    (htotal : totalAllocation data allocation) (hpw : 0 < penalty_weight) :
    bed_capacity_violations data allocation =
      (data.wards.map (fun wv =>
        ((List.range data.num_days).map (fun d =>
          count_beds_used_on_day data allocation wv.1 d - wv.2.bed_capacity)).sum)).sum ∧
    (bed_capacity_violations data allocation = 0 ↔
      feasible_after_change_beds data allocation none = true) ∧
    objective_value data allocation lambda1 lambda2 ≤
      objective_value_penalized data allocation lambda1 lambda2 penalty_weight ∧
    (objective_value_penalized data allocation lambda1 lambda2 penalty_weight =
        objective_value data allocation lambda1 lambda2 ↔
      bed_capacity_violations data allocation = 0) := by
  refine ⟨bed_capacity_violations_eq_sum data allocation,
    bed_capacity_violations_eq_zero_iff data allocation, ?_, ?_⟩
  · unfold objective_value_penalized
    have : (0 : ℚ) ≤ penalty_weight * (bed_capacity_violations data allocation : ℚ) := by
      positivity
    linarith
  · unfold objective_value_penalized
    rw [add_right_eq_self, mul_eq_zero, Nat.cast_eq_zero]
    constructor
    · intro h
      rcases h with h | h
      · exact absurd h (ne_of_gt hpw)
      · exact h
    · intro h; exact Or.inr h

/-! ## Small concrete instances used by the witnesses -/

/-- A one-patient, one-ward, one-day instance. -/
def tinyData : PatientAllocationData where
  patients := [(0, { specialization := 0, earliest := 0, latest := 0, los := 1, surgery_duration := 1, workload_per_day := [1] })]
  wards := [(0, { bed_capacity := 1, workload_capacity := 1, major_specialization := 0, minor_specializations := [], carryover_patients := [0], carryover_workload := [0] })]
  specialisms := [(0, { ot_time := [1], workload_factor := 1 })]
  num_days := 1
  weight_delay := 1
  weight_overtime := 1
  weight_undertime := 1

/-- The only capacity-feasible allocation of `tinyData`. -/
def tinyAlloc : Alloc := [(0, { ward := 0, day := 0 })]

/-- A total but out-of-window, past-horizon allocation of `tinyData`. -/
def tinyAllocLate : Alloc := [(0, { ward := 0, day := 5 })]

/-- Witness for C1 at a concrete total allocation with positive penalty. -/
theorem C1_violations_and_penalized_objective_witness :
    totalAllocation tinyData tinyAlloc ∧ (0 : ℚ) < 1000 ∧
    (bed_capacity_violations tinyData tinyAlloc =
      (tinyData.wards.map (fun wv =>
        ((List.range tinyData.num_days).map (fun d =>
          count_beds_used_on_day tinyData tinyAlloc wv.1 d - wv.2.bed_capacity)).sum)).sum ∧
    (bed_capacity_violations tinyData tinyAlloc = 0 ↔
      feasible_after_change_beds tinyData tinyAlloc none = true) ∧
    objective_value tinyData tinyAlloc (1/2) (1/2) ≤
      objective_value_penalized tinyData tinyAlloc (1/2) (1/2) 1000 ∧
    (objective_value_penalized tinyData tinyAlloc (1/2) (1/2) 1000 =
        objective_value tinyData tinyAlloc (1/2) (1/2) ↔
      bed_capacity_violations tinyData tinyAlloc = 0)) :=
  ⟨by decide, by norm_num,
    C1_violations_and_penalized_objective tinyData tinyAlloc (1/2) (1/2) 1000
      (by decide) (by norm_num)⟩

/-! ## Totality of the evaluator (C9) -/

/-- A monadic fold whose body always succeeds is the plain fold. -/
theorem foldlM_option_eq_foldl {α β : Type} (f : β → α → Option β) (g : β → α → β)
    (l : List α) (hb : ∀ b : β, ∀ a ∈ l, f b a = some (g b a)) (b : β) :
    l.foldlM f b = some (l.foldl g b) := by
  induction l generalizing b with
  | nil => rfl
  | cons x xs ih =>
    rw [List.foldlM_cons, List.foldl_cons, hb b x (List.mem_cons_self x xs)]
    exact ih (fun b a ha => hb b a (List.mem_cons_of_mem x ha)) (g b x)

/-- A successful `dictFind` returns exactly what `dictGetD` returns. -/
theorem dictFind_eq_some_getD {β : Type} [Inhabited β] {l : List (ℕ × β)} {k : ℕ}
    (h : (dictFind l k).isSome) : dictFind l k = some (dictGetD l k default) := by
  unfold dictFind dictGetD at *
  cases hf : l.find? (fun kv => decide (kv.1 = k)) with
  | none => rw [hf] at h; simp at h
  | some kv => simp [hf]

/-- A key that occurs in the association list is found. -/
theorem dictFind_isSome_of_mem_keys {β : Type} {l : List (ℕ × β)} {k : ℕ}
    (h : k ∈ l.map Prod.fst) : (dictFind l k).isSome := by
  unfold dictFind
  rcases List.mem_map.mp h with ⟨kv, hkv, rfl⟩
  have hf : (l.find? (fun kv2 => decide (kv2.1 = kv.1))).isSome :=
    List.find?_isSome.mpr ⟨kv, hkv, by simp⟩
  cases hfind : l.find? (fun kv2 => decide (kv2.1 = kv.1)) with
  | none => rw [hfind] at hf; simp at hf
  | some x => simp [hfind]

/-- The exception-aware bed count agrees with the total one when every
allocated patient id is a known patient. -/
theorem count_beds_used_on_dayE_eq (data : PatientAllocationData) (allocation : Alloc)
    (w d : ℕ) (hpat : ∀ kv ∈ allocation, (dictFind data.patients kv.1).isSome) :
    count_beds_used_on_dayE data allocation w d =
      some (count_beds_used_on_day data allocation w d) := by
  unfold count_beds_used_on_dayE count_beds_used_on_day
  apply foldlM_option_eq_foldl
  intro b kv hkv
  by_cases hw : kv.2.ward ≠ w
  · simp only [if_pos hw]
  · simp only [if_neg hw]
    rw [dictFind_eq_some_getD (hpat kv hkv)]
    exact (apply_ite some _ _ _).symm

/-- The exception-aware violation count agrees with the total one. -/
theorem bed_capacity_violationsE_eq (data : PatientAllocationData) (allocation : Alloc)
    (hpat : ∀ kv ∈ allocation, (dictFind data.patients kv.1).isSome) :
    bed_capacity_violationsE data allocation =
      some (bed_capacity_violations data allocation) := by
  unfold bed_capacity_violationsE bed_capacity_violations
  apply foldlM_option_eq_foldl
  intro b wv _
  apply foldlM_option_eq_foldl
  intro b2 d _
  rw [count_beds_used_on_dayE_eq data allocation wv.1 d hpat]
  exact (apply_ite some _ _ _).symm

/-- The exception-aware theatre-time count agrees with the total one. -/
theorem compute_ot_used_by_spec_dayE_eq (data : PatientAllocationData)
    (allocation : Alloc) (spec d : ℕ)
    (hpat : ∀ kv ∈ allocation, (dictFind data.patients kv.1).isSome) :
    compute_ot_used_by_spec_dayE data allocation spec d =
      some (compute_ot_used_by_spec_day data allocation spec d) := by
  unfold compute_ot_used_by_spec_dayE compute_ot_used_by_spec_day
  apply foldlM_option_eq_foldl
  intro b kv hkv
  rw [dictFind_eq_some_getD (hpat kv hkv)]
  exact (apply_ite some _ _ _).symm

/-- The exception-aware ward-day workload agrees with the total one: the
source's bounds guard protects the profile lookup and the discount lookup is
backed by the data invariant on minor specializations. -/
theorem ward_day_workloadE_eq (data : PatientAllocationData) (allocation : Alloc)
    (wname : ℕ) (ward : Ward) (d : ℕ)
    (hpat : ∀ kv ∈ allocation, (dictFind data.patients kv.1).isSome)
    (hmin : ∀ s ∈ ward.minor_specializations, (dictFind data.specialisms s).isSome) :
    ward_day_workloadE data allocation wname ward d =
      some (ward_day_workload data allocation wname ward d) := by
  unfold ward_day_workloadE ward_day_workload
  apply foldlM_option_eq_foldl
  intro b kv hkv
  by_cases hw : kv.2.ward ≠ wname
  · simp only [if_pos hw]
  · simp only [if_neg hw]
    rw [dictFind_eq_some_getD (hpat kv hkv)]
    show (if _ then _ else some b) = _
    by_cases hA : kv.2.day ≤ d ∧ d < kv.2.day +
        (dictGetD data.patients kv.1 default).los
    · simp only [if_pos hA]
      by_cases hB : d - kv.2.day <
          (dictGetD data.patients kv.1 default).workload_per_day.length
      · simp only [if_pos hB]
        rw [List.get?_eq_get hB, List.getD_eq_getD_get?, List.get?_eq_get hB]
        by_cases hC : (dictGetD data.patients kv.1 default).specialization ≠
            ward.major_specialization ∧
            ward.minor_specializations.contains
              (dictGetD data.patients kv.1 default).specialization
        · have hmem : (dictGetD data.patients kv.1 default).specialization ∈
              ward.minor_specializations := by
            have h2 := hC.2
            simpa [List.contains_eq_any_beq, List.any_eq_true] using h2
          simp only [if_pos hC]
          rw [dictFind_eq_some_getD (hmin _ hmem)]
          rfl
        · simp only [if_neg hC]
          rfl
      · simp only [if_neg hB]
    · simp only [if_neg hA]

/-- The exception-aware normalized-workload computation agrees with the
total one (the source's positivity guard keeps the division defined). -/
theorem compute_workload_normalized_and_zE_eq (data : PatientAllocationData)
    (allocation : Alloc)
    (hpat : ∀ kv ∈ allocation, (dictFind data.patients kv.1).isSome)
    (hmin : ∀ wv ∈ data.wards, ∀ s ∈ wv.2.minor_specializations,
      (dictFind data.specialisms s).isSome) :
    compute_workload_normalized_and_zE data allocation =
      some (compute_workload_normalized_and_z data allocation) := by
  unfold compute_workload_normalized_and_zE compute_workload_normalized_and_z
  apply foldlM_option_eq_foldl
  intro b wv hwv
  apply foldlM_option_eq_foldl
  intro b2 d _
  rw [ward_day_workloadE_eq data allocation wv.1 wv.2 d hpat (hmin wv hwv)]
  by_cases hcap : wv.2.workload_capacity > 0
  · simp only [if_pos hcap]
    unfold divE
    simp only [if_neg (ne_of_gt hcap)]
    rfl
  · simp only [if_neg hcap]
    rfl

/-- The exception-aware objective components agree with the total ones. -/
theorem compute_objective_componentsE_eq (data : PatientAllocationData)
    (allocation : Alloc)
    (hpat : ∀ kv ∈ allocation, (dictFind data.patients kv.1).isSome)
    (hmin : ∀ wv ∈ data.wards, ∀ s ∈ wv.2.minor_specializations,
      (dictFind data.specialisms s).isSome) :
    compute_objective_componentsE data allocation =
      some (compute_objective_components data allocation) := by
  unfold compute_objective_componentsE compute_objective_components
  have hdel := foldlM_option_eq_foldl
    (fun delays kv => do
      let p ← dictFind data.patients (kv : ℕ × Assign).1
      some (delays + max 0 ((kv.2.day : ℚ) - (p.earliest : ℚ))))
    (fun delays kv =>
      delays + max 0 (((kv : ℕ × Assign).2.day : ℚ) -
        ((dictGetD data.patients kv.1 default).earliest : ℚ)))
    allocation
    (by
      intro b kv hkv
      simp only [dictFind_eq_some_getD (hpat kv hkv)]
      rfl)
    (0 : ℚ)
  rw [hdel]
  have hot := foldlM_option_eq_foldl
    (fun acc sv =>
      (List.range data.num_days).foldlM
        (fun acc d => do
          let used ← compute_ot_used_by_spec_dayE data allocation (sv : ℕ × Specialism).1 d
          let avail := sv.2.ot_time.getD d 0
          if used > avail then
            some (acc.1 + (used - avail), acc.2.1,
              acc.2.2 ++ [((sv.1, d), (used, avail, used - avail, 0))])
          else
            some (acc.1, acc.2.1 + (avail - used),
              acc.2.2 ++ [((sv.1, d), (used, avail, 0, avail - used))]))
        acc)
    (fun acc sv =>
      (List.range data.num_days).foldl
        (fun acc d =>
          let used := compute_ot_used_by_spec_day data allocation (sv : ℕ × Specialism).1 d
          let avail := sv.2.ot_time.getD d 0
          if used > avail then
            (acc.1 + (used - avail), acc.2.1,
              acc.2.2 ++ [((sv.1, d), (used, avail, used - avail, 0))])
          else
            (acc.1, acc.2.1 + (avail - used),
              acc.2.2 ++ [((sv.1, d), (used, avail, 0, avail - used))]))
        acc)
    data.specialisms
    (by
      intro b sv _
      apply foldlM_option_eq_foldl
      intro b2 d _
      rw [compute_ot_used_by_spec_dayE_eq data allocation sv.1 d hpat]
      exact (apply_ite some _ _ _).symm)
    ((0 : ℚ), (0 : ℚ), ([] : List ((ℕ × ℕ) × (ℚ × ℚ × ℚ × ℚ))))
  rw [hot]
  rw [compute_workload_normalized_and_zE_eq data allocation hpat hmin]
  rfl

/-- C9.  On every total allocation — including allocations with days outside
a patient's window or past the horizon — the exception-aware evaluator
succeeds and agrees with the total evaluator: the guarded day-of-stay lookup
and the guarded workload normalization make `compute_objective_components`,
`objective_value` and `objective_value_penalized` total. -/
theorem C9_evaluator_total (data : PatientAllocationData) (allocation : Alloc)
    (lambda1 lambda2 penalty_weight : ℚ)
    (htotal : totalAllocation data allocation)
    (hmin : ∀ wv ∈ data.wards, ∀ s ∈ wv.2.minor_specializations,
      (dictFind data.specialisms s).isSome) :
    compute_objective_componentsE data allocation =
      some (compute_objective_components data allocation) ∧
    objective_valueE data allocation lambda1 lambda2 =
      some (objective_value data allocation lambda1 lambda2) ∧
    objective_value_penalizedE data allocation lambda1 lambda2 penalty_weight =
      some (objective_value_penalized data allocation lambda1 lambda2 penalty_weight) := by
  have hpat : ∀ kv ∈ allocation, (dictFind data.patients kv.1).isSome := by
    intro kv hkv
    exact dictFind_isSome_of_mem_keys
      (htotal.2.1 kv.1 (List.mem_map.mpr ⟨kv, hkv, rfl⟩))
  have hc := compute_objective_componentsE_eq data allocation hpat hmin
  have hv : objective_valueE data allocation lambda1 lambda2 =
      some (objective_value data allocation lambda1 lambda2) := by
    unfold objective_valueE objective_value
    rw [hc]
    rfl
  refine ⟨hc, hv, ?_⟩
  unfold objective_value_penalizedE objective_value_penalized
  rw [hv, bed_capacity_violationsE_eq data allocation hpat]
  rfl

/-- Witness for C9 at a concrete total allocation whose day lies past the
patient's window and the planning horizon. -/
theorem C9_evaluator_total_witness :
    totalAllocation tinyData tinyAllocLate ∧
    (∀ wv ∈ tinyData.wards, ∀ s ∈ wv.2.minor_specializations,
      (dictFind tinyData.specialisms s).isSome) ∧
    (compute_objective_componentsE tinyData tinyAllocLate =
      some (compute_objective_components tinyData tinyAllocLate) ∧
    objective_valueE tinyData tinyAllocLate (1/2) (1/2) =
      some (objective_value tinyData tinyAllocLate (1/2) (1/2)) ∧
    objective_value_penalizedE tinyData tinyAllocLate (1/2) (1/2) 1000 =
      some (objective_value_penalized tinyData tinyAllocLate (1/2) (1/2) 1000)) :=
  ⟨by decide, by decide,
    C9_evaluator_total tinyData tinyAllocLate (1/2) (1/2) 1000 (by decide) (by decide)⟩

/-! ## Infeasible seeds are rejected (C5) and the published best stays
feasible (C4) -/

/-- A variant of `tinyData` whose only ward has no beds, making every
allocation that admits the patient capacity-infeasible. -/
def tinyDataNoBeds : PatientAllocationData where
  patients := [(0, { specialization := 0, earliest := 0, latest := 0, los := 1, surgery_duration := 1, workload_per_day := [1] })]
  wards := [(0, { bed_capacity := 0, workload_capacity := 1, major_specialization := 0, minor_specializations := [], carryover_patients := [0], carryover_workload := [0] })]
  specialisms := [(0, { ot_time := [1], workload_factor := 1 })]
  num_days := 1
  weight_delay := 1
  weight_overtime := 1
  weight_undertime := 1

/-- A deterministic (constant) local-search oracle. -/
def trivLS : LSOracle :=
  fun _ => { timeTop := false, pick := fun _ => 0, timeIn := fun _ => false,
             dayPick := fun _ _ => 0 }

/-- A deterministic (constant) perturbation oracle. -/
def trivPerturb : PerturbChoice :=
  { samplePick := fun _ => 0, wardPick := fun _ => 0, dayPick := fun _ => 0 }

/-- A deterministic (constant) ILS oracle. -/
def trivILS : ℕ → ILSChoice :=
  fun _ => { timeUp := false, ls := trivLS, perturb := trivPerturb }

/-- A deterministic (constant) shake oracle. -/
def trivShake : ShakeChoice :=
  { pidPick := fun _ => 0, shiftIdx := 0, wardPick := fun _ => 0,
    dayPick := fun _ => 0, coin := fun _ => 0 }

/-- A deterministic (constant) VNS oracle. -/
def trivVNS : ℕ → VNSChoice :=
  fun _ => { timeUp := false, shake := trivShake, ls := trivLS }

/-- C5.  A start allocation that fails the bed-capacity check makes
`IteratedLocalSearch.solve` and `VariableNeighborhoodSearch.solve` raise
(`.error ()`) before any search iteration, returning no partial result. -/
theorem C5_infeasible_seed_rejected (ils : IteratedLocalSearch)
    (vns : VariableNeighborhoodSearch) (Oi : ℕ → ILSChoice) (Ov : ℕ → VNSChoice)
    (start : Alloc) (n1 n2 : ℕ)
    (hi : feasible_after_change_beds ils.data start none = false)
    (hv : feasible_after_change_beds vns.data start none = false) :
    ils.solve Oi start n1 = .error () ∧ vns.solve Ov start n2 = .error () := by
  constructor
  · unfold IteratedLocalSearch.solve
    simp [hi]
  · unfold VariableNeighborhoodSearch.solve
    simp [hv]

/-- Witness for C5: the no-bed instance rejects the seed that admits its
patient. -/
theorem C5_infeasible_seed_rejected_witness :
    feasible_after_change_beds tinyDataNoBeds tinyAlloc none = false ∧
    (IteratedLocalSearch.mk tinyDataNoBeds (1/2) (1/2) 1000).solve trivILS tinyAlloc 5 =
      .error () ∧
    (VariableNeighborhoodSearch.mk tinyDataNoBeds (1/2) (1/2) 1000).solve trivVNS tinyAlloc 5 =
      .error () :=
  ⟨by decide,
    (C5_infeasible_seed_rejected (IteratedLocalSearch.mk tinyDataNoBeds (1/2) (1/2) 1000)
      (VariableNeighborhoodSearch.mk tinyDataNoBeds (1/2) (1/2) 1000) trivILS trivVNS
      tinyAlloc 5 5 (by decide) (by decide)).1,
    (C5_infeasible_seed_rejected (IteratedLocalSearch.mk tinyDataNoBeds (1/2) (1/2) 1000)
      (VariableNeighborhoodSearch.mk tinyDataNoBeds (1/2) (1/2) 1000) trivILS trivVNS
      tinyAlloc 5 5 (by decide) (by decide)).2⟩

/-- One ILS iteration keeps the stored best allocation bed-feasible: the
best is replaced only inside the branch guarded by the bed-capacity check. -/
theorem ils_step_best_feasible (self : IteratedLocalSearch) (O : ℕ → ILSChoice)
    (i : ℕ) (s : ILSState)
    (h : feasible_after_change_beds self.data s.best_feasible_allocation none = true) :
    feasible_after_change_beds self.data
      ((self.step O i s).best_feasible_allocation) none = true := by
  unfold IteratedLocalSearch.step
  by_cases hstop : s.stopped
  · simp only [if_pos hstop]; exact h
  · simp only [if_neg hstop]
    by_cases ht : (O i).timeUp
    · simp only [if_pos ht]; exact h
    · simp only [if_neg ht]
      by_cases hf : feasible_after_change_beds self.data
          ((self._local_search_fast (O i).ls s.current).1) none = true
      · simp only [hf, if_true]
        by_cases himp : objective_value self.data
            ((self._local_search_fast (O i).ls s.current).1) self.lambda1 self.lambda2
            + 1/1000000000 < s.best_feasible_value
        · simp only [if_pos himp]
          split <;> exact hf
        · simp only [if_neg himp]
          split <;> exact h
      · simp only [Bool.not_eq_true] at hf
        simp only [hf, Bool.false_eq_true, if_false]
        split <;> exact h

/-- One VNS iteration keeps the stored best allocation bed-feasible. -/
theorem vns_step_best_feasible (self : VariableNeighborhoodSearch)
    (O : ℕ → VNSChoice) (i : ℕ) (s : VNSState)
    (h : feasible_after_change_beds self.data s.best_feasible_allocation none = true) :
    feasible_after_change_beds self.data
      ((self.step O i s).best_feasible_allocation) none = true := by
  unfold VariableNeighborhoodSearch.step
  by_cases hstop : s.stopped
  · simp only [if_pos hstop]; exact h
  · simp only [if_neg hstop]
    by_cases ht : (O i).timeUp
    · simp only [if_pos ht]; exact h
    · simp only [if_neg ht]
      by_cases himp : self.improves (O i) s = true
      · have hfeas : feasible_after_change_beds self.data (self.candidate (O i) s) none = true := by
          unfold VariableNeighborhoodSearch.improves at himp
          exact (Bool.and_eq_true _ _ ▸ himp).1
        simp only [himp, if_true]
        split <;> exact hfeas
      · simp only [Bool.not_eq_true] at himp
        simp only [himp, Bool.false_eq_true, if_false]
        split <;> exact h

/-- Along any ILS run, a bed-feasible stored best stays bed-feasible. -/
theorem ils_stateAt_best_feasible (self : IteratedLocalSearch) (O : ℕ → ILSChoice)
    (s0 : ILSState)
    (h0 : feasible_after_change_beds self.data s0.best_feasible_allocation none = true) :
    ∀ n, feasible_after_change_beds self.data
      ((self.stateAt O s0 n).best_feasible_allocation) none = true := by
  intro n
  induction n with
  | zero => exact h0
  | succ n ih => exact ils_step_best_feasible self O n _ ih

/-- Along any VNS run, a bed-feasible stored best stays bed-feasible. -/
theorem vns_stateAt_best_feasible (self : VariableNeighborhoodSearch)
    (O : ℕ → VNSChoice) (s0 : VNSState)
    (h0 : feasible_after_change_beds self.data s0.best_feasible_allocation none = true) :
    ∀ n, feasible_after_change_beds self.data
      ((self.stateAt O s0 n).best_feasible_allocation) none = true := by
  intro n
  induction n with
  | zero => exact h0
  | succ n ih => exact vns_step_best_feasible self O n _ ih

/-- C4.  When ILS and VNS are started from a bed-capacity-feasible seed, the
stored best feasible allocation is bed-capacity-feasible at every step
(internal states explored under the penalized objective are adopted as best
only behind the bed-capacity guard), and the allocation returned by `solve`
is bed-capacity-feasible. -/
theorem C4_published_best_feasible (ils : IteratedLocalSearch)
    (vns : VariableNeighborhoodSearch) (Oi : ℕ → ILSChoice) (Ov : ℕ → VNSChoice)
    (start : Alloc) (n1 n2 i j : ℕ) (s : ILSState) (t : VNSState)
    (hs : feasible_after_change_beds ils.data s.best_feasible_allocation none = true)
    (ht : feasible_after_change_beds vns.data t.best_feasible_allocation none = true)
    (hstart1 : feasible_after_change_beds ils.data start none = true)
    (hstart2 : feasible_after_change_beds vns.data start none = true) :
    feasible_after_change_beds ils.data
      ((ils.step Oi i s).best_feasible_allocation) none = true ∧
    feasible_after_change_beds vns.data
      ((vns.step Ov j t).best_feasible_allocation) none = true ∧
    (∃ r, ils.solve Oi start n1 = .ok r ∧
      feasible_after_change_beds ils.data r.allocation none = true) ∧
    (∃ r, vns.solve Ov start n2 = .ok r ∧
      feasible_after_change_beds vns.data r.allocation none = true) := by
  refine ⟨ils_step_best_feasible ils Oi i s hs, vns_step_best_feasible vns Ov j t ht, ?_, ?_⟩
  · unfold IteratedLocalSearch.solve
    rw [if_pos hstart1]
    refine ⟨_, rfl, ?_⟩
    exact ils_stateAt_best_feasible ils Oi _ hstart1 n1
  · unfold VariableNeighborhoodSearch.solve
    rw [if_pos hstart2]
    refine ⟨_, rfl, ?_⟩
    exact vns_stateAt_best_feasible vns Ov _ hstart2 n2

/-- Witness for C4 on the one-patient instance with its feasible seed. -/
theorem C4_published_best_feasible_witness :
    (feasible_after_change_beds tinyData tinyAlloc none = true ∧
      feasible_after_change_beds tinyData tinyAlloc none = true) ∧
    feasible_after_change_beds tinyData
      (((IteratedLocalSearch.mk tinyData (1/2) (1/2) 1000).step trivILS 0
        { current := tinyAlloc, best_feasible_value := 0,
          best_feasible_allocation := tinyAlloc, no_improve_counter := 0,
          stopped := false, perturb_log := [] }).best_feasible_allocation) none = true ∧
    feasible_after_change_beds tinyData
      (((VariableNeighborhoodSearch.mk tinyData (1/2) (1/2) 1000).step trivVNS 0
        { current := tinyAlloc, best_feasible_value := 0,
          best_feasible_allocation := tinyAlloc, k := 1,
          stopped := false }).best_feasible_allocation) none = true ∧
    (∃ r, (IteratedLocalSearch.mk tinyData (1/2) (1/2) 1000).solve trivILS tinyAlloc 3 = .ok r ∧
      feasible_after_change_beds tinyData r.allocation none = true) ∧
    (∃ r, (VariableNeighborhoodSearch.mk tinyData (1/2) (1/2) 1000).solve trivVNS tinyAlloc 3 = .ok r ∧
      feasible_after_change_beds tinyData r.allocation none = true) :=
  ⟨⟨by decide, by decide⟩,
    C4_published_best_feasible (IteratedLocalSearch.mk tinyData (1/2) (1/2) 1000)
      (VariableNeighborhoodSearch.mk tinyData (1/2) (1/2) 1000) trivILS trivVNS
      tinyAlloc 3 3 0 0
      { current := tinyAlloc, best_feasible_value := 0,
        best_feasible_allocation := tinyAlloc, no_improve_counter := 0,
        stopped := false, perturb_log := [] }
      { current := tinyAlloc, best_feasible_value := 0,
        best_feasible_allocation := tinyAlloc, k := 1, stopped := false }
      (by decide) (by decide) (by decide) (by decide)⟩

/-! ## The recorded best objective never increases (C3) -/

/-- One SA iteration never increases the tracked best objective. -/
theorem sa_step_best_le (self : SimulatedAnnealing) (e : ℚ → ℚ) (O : ℕ → SAChoice)
    (cooling_rate : ℚ) (i : ℕ) (s : SAState) :
    (self.step e O cooling_rate i s).best_solution.objective_value ≤
      s.best_solution.objective_value := by
  unfold SimulatedAnnealing.step
  by_cases hstop : s.stopped
  · simp only [if_pos hstop]; exact le_refl _
  · simp only [if_neg hstop]
    split <;> split
    · next h =>
      rw [Bool.and_eq_true] at h
      exact le_of_lt (of_decide_eq_true h.2)
    · exact le_refl _
    · next h =>
      rw [Bool.and_eq_true] at h
      exact le_of_lt (of_decide_eq_true h.2)
    · exact le_refl _

/-- One Tabu iteration never increases the tracked best objective. -/
theorem tabu_step_best_le (self : TabuSearch) (O : ℕ → ℕ → SAChoice)
    (tabu_tenure i : ℕ) (s : TabuState) :
    (self.step O tabu_tenure i s).best_solution.objective_value ≤
      s.best_solution.objective_value := by
  unfold TabuSearch.step
  dsimp only
  split
  · exact le_refl _
  · dsimp only
    split
    · next h => exact le_of_lt h
    · exact le_refl _

/-- One ILS iteration never increases the tracked best feasible objective. -/
theorem ils_step_best_le (self : IteratedLocalSearch) (O : ℕ → ILSChoice)
    (i : ℕ) (s : ILSState) :
    (self.step O i s).best_feasible_value ≤ s.best_feasible_value := by
  unfold IteratedLocalSearch.step
  by_cases hstop : s.stopped
  · simp only [if_pos hstop]; exact le_refl _
  · simp only [if_neg hstop]
    by_cases ht : (O i).timeUp
    · simp only [if_pos ht]; exact le_refl _
    · simp only [if_neg ht]
      by_cases hf : feasible_after_change_beds self.data
          ((self._local_search_fast (O i).ls s.current).1) none = true
      · simp only [hf, if_true]
        by_cases himp : objective_value self.data
            ((self._local_search_fast (O i).ls s.current).1) self.lambda1 self.lambda2
            + 1/1000000000 < s.best_feasible_value
        · simp only [if_pos himp]
          split
          · dsimp only; linarith
          · dsimp only; linarith
        · simp only [if_neg himp]
          split <;> exact le_refl _
      · simp only [Bool.not_eq_true] at hf
        simp only [hf, Bool.false_eq_true, if_false]
        split <;> exact le_refl _

/-- One VNS iteration never increases the tracked best feasible objective. -/
theorem vns_step_best_le (self : VariableNeighborhoodSearch) (O : ℕ → VNSChoice)
    (i : ℕ) (s : VNSState) :
    (self.step O i s).best_feasible_value ≤ s.best_feasible_value := by
  unfold VariableNeighborhoodSearch.step
  by_cases hstop : s.stopped
  · simp only [if_pos hstop]; exact le_refl _
  · simp only [if_neg hstop]
    by_cases ht : (O i).timeUp
    · simp only [if_pos ht]; exact le_refl _
    · simp only [if_neg ht]
      by_cases himp : self.improves (O i) s = true
      · have hlt : objective_value self.data (self.candidate (O i) s) self.lambda1 self.lambda2
            + 1/1000000000 < s.best_feasible_value := by
          unfold VariableNeighborhoodSearch.improves at himp
          exact of_decide_eq_true (Bool.and_eq_true _ _ ▸ himp).2
        simp only [himp, if_true]
        split <;> dsimp only <;> linarith
      · simp only [Bool.not_eq_true] at himp
        simp only [himp, Bool.false_eq_true, if_false]
        split <;> exact le_refl _

/-- C3.  In every SA, Tabu, ILS and VNS run, the recorded best objective is
non-increasing from one iteration to the next: the tracked best is replaced
only by a strictly smaller candidate objective, whatever the accept/reject
trajectory does. -/
theorem C3_recorded_best_nonincreasing (sa : SimulatedAnnealing) (tb : TabuSearch)
    (ils : IteratedLocalSearch) (vns : VariableNeighborhoodSearch) (e : ℚ → ℚ)
    (Os : ℕ → SAChoice) (Ot : ℕ → ℕ → SAChoice) (Oi : ℕ → ILSChoice)
    (Ov : ℕ → VNSChoice) (cooling_rate : ℚ) (tabu_tenure : ℕ)
    (s1 : SAState) (s2 : TabuState) (s3 : ILSState) (s4 : VNSState)
    (n1 n2 n3 n4 : ℕ) :
    (sa.stateAt e Os cooling_rate s1 (n1 + 1)).best_solution.objective_value ≤
      (sa.stateAt e Os cooling_rate s1 n1).best_solution.objective_value ∧
    (tb.stateAt Ot tabu_tenure s2 (n2 + 1)).best_solution.objective_value ≤
      (tb.stateAt Ot tabu_tenure s2 n2).best_solution.objective_value ∧
    (ils.stateAt Oi s3 (n3 + 1)).best_feasible_value ≤
      (ils.stateAt Oi s3 n3).best_feasible_value ∧
    (vns.stateAt Ov s4 (n4 + 1)).best_feasible_value ≤
      (vns.stateAt Ov s4 n4).best_feasible_value := by
  refine ⟨?_, ?_, ?_, ?_⟩
  · simp only [SimulatedAnnealing.stateAt]
    exact sa_step_best_le sa e Os cooling_rate n1 _
  · simp only [TabuSearch.stateAt]
    exact tabu_step_best_le tb Ot tabu_tenure n2 _
  · simp only [IteratedLocalSearch.stateAt]
    exact ils_step_best_le ils Oi n3 _
  · simp only [VariableNeighborhoodSearch.stateAt]
    exact vns_step_best_le vns Ov n4 _

/-! ## The VNS neighborhood index discipline (C7) -/

/-- One VNS iteration keeps the neighborhood index between 1 and `K_MAX`. -/
theorem vns_step_k_bounds (self : VariableNeighborhoodSearch) (O : ℕ → VNSChoice)
    (i : ℕ) (s : VNSState) (hk : 1 ≤ s.k ∧ s.k ≤ VariableNeighborhoodSearch.K_MAX) :
    1 ≤ (self.step O i s).k ∧ (self.step O i s).k ≤ VariableNeighborhoodSearch.K_MAX := by
  unfold VariableNeighborhoodSearch.step
  by_cases hstop : s.stopped
  · simp only [if_pos hstop]; exact hk
  · simp only [if_neg hstop]
    by_cases ht : (O i).timeUp
    · simp only [if_pos ht]; exact hk
    · simp only [if_neg ht]
      by_cases himp : self.improves (O i) s = true
      · simp only [himp, if_true]
        unfold VariableNeighborhoodSearch.K_MAX at *
        split <;> simp_all <;> omega
      · simp only [Bool.not_eq_true] at himp
        simp only [himp, Bool.false_eq_true, if_false]
        unfold VariableNeighborhoodSearch.K_MAX at *
        split <;> simp_all <;> omega

/-- One VNS iteration preserves the equality between the working allocation
and the stored best allocation (adoption copies the same allocation into
both, and a failed iteration changes neither). -/
theorem vns_step_current_eq_best (self : VariableNeighborhoodSearch)
    (O : ℕ → VNSChoice) (i : ℕ) (s : VNSState)
    (hcur : s.current = s.best_feasible_allocation) :
    (self.step O i s).current = (self.step O i s).best_feasible_allocation := by
  unfold VariableNeighborhoodSearch.step
  by_cases hstop : s.stopped
  · simp only [if_pos hstop]; exact hcur
  · simp only [if_neg hstop]
    by_cases ht : (O i).timeUp
    · simp only [if_pos ht]; exact hcur
    · simp only [if_neg ht]
      by_cases himp : self.improves (O i) s = true
      · simp only [himp, if_true]
        split <;> rfl
      · simp only [Bool.not_eq_true] at himp
        simp only [himp, Bool.false_eq_true, if_false]
        split <;> exact hcur

/-- Along any VNS run, the neighborhood index stays between 1 and `K_MAX`. -/
theorem vns_stateAt_k_bounds (self : VariableNeighborhoodSearch)
    (O : ℕ → VNSChoice) (s0 : VNSState)
    (h0 : 1 ≤ s0.k ∧ s0.k ≤ VariableNeighborhoodSearch.K_MAX) :
    ∀ n, 1 ≤ (self.stateAt O s0 n).k ∧
      (self.stateAt O s0 n).k ≤ VariableNeighborhoodSearch.K_MAX := by
  intro n
  induction n with
  | zero => exact h0
  | succ n ih => exact vns_step_k_bounds self O n _ ih

/-- In an active VNS iteration the index is reset to 1 exactly on a feasible
improving result, and otherwise incremented with a wrap past `K_MAX`. -/
theorem vns_step_k_update (self : VariableNeighborhoodSearch) (O : ℕ → VNSChoice)
    (i : ℕ) (s : VNSState) (hk : 1 ≤ s.k ∧ s.k ≤ VariableNeighborhoodSearch.K_MAX)
    (hstop : s.stopped = false) (ht : (O i).timeUp = false) :
    (self.step O i s).k =
      if self.improves (O i) s = true then 1
      else if s.k = VariableNeighborhoodSearch.K_MAX then 1 else s.k + 1 := by
  unfold VariableNeighborhoodSearch.step
  simp only [hstop, Bool.false_eq_true, if_false, ht]
  by_cases himp : self.improves (O i) s = true
  · simp only [himp, if_true]
    norm_num [VariableNeighborhoodSearch.K_MAX]
  · simp only [Bool.not_eq_true] at himp
    simp only [himp, Bool.false_eq_true, if_false]
    unfold VariableNeighborhoodSearch.K_MAX at *
    split
    · next hgt => rw [if_pos (by omega)]
    · next hgt => rw [if_neg (by omega)]

/-- A non-improving VNS iteration leaves the working allocation, the stored
best allocation and the best value unchanged (so the next shake starts from
the unchanged best, not from the discarded candidate). -/
theorem vns_step_frame_on_failure (self : VariableNeighborhoodSearch)
    (O : ℕ → VNSChoice) (i : ℕ) (s : VNSState)
    (himp : self.improves (O i) s = false) :
    (self.step O i s).current = s.current ∧
    (self.step O i s).best_feasible_allocation = s.best_feasible_allocation ∧
    (self.step O i s).best_feasible_value = s.best_feasible_value := by
  unfold VariableNeighborhoodSearch.step
  by_cases hstop : s.stopped
  · rw [if_pos hstop]; exact ⟨rfl, rfl, rfl⟩
  · rw [if_neg hstop]
    by_cases ht : (O i).timeUp
    · rw [if_pos ht]; exact ⟨rfl, rfl, rfl⟩
    · rw [if_neg ht]
      simp only [himp, Bool.false_eq_true, if_false]
      split <;> exact ⟨rfl, rfl, rfl⟩

/-- C7.  The VNS neighborhood index satisfies `1 ≤ k ≤ K_MAX` at every shake
of every run; in an active iteration it is reset to 1 exactly when the
feasible local-search result improves the best objective (by more than the
`1e-9` tolerance of the source), and otherwise incremented, wrapping to 1
past `K_MAX`; a failed iteration leaves the working allocation equal to the
unchanged best allocation, which the next shake therefore starts from. -/
theorem C7_vns_k_discipline (vns : VariableNeighborhoodSearch) (O : ℕ → VNSChoice)
    (i n : ℕ) (s s0 : VNSState)
    (hk : 1 ≤ s.k ∧ s.k ≤ VariableNeighborhoodSearch.K_MAX)
    (hcur : s.current = s.best_feasible_allocation)
    (hk0 : 1 ≤ s0.k ∧ s0.k ≤ VariableNeighborhoodSearch.K_MAX)
    (hstop : s.stopped = false) (ht : (O i).timeUp = false) :
    (1 ≤ (vns.step O i s).k ∧ (vns.step O i s).k ≤ VariableNeighborhoodSearch.K_MAX) ∧
    (1 ≤ (vns.stateAt O s0 n).k ∧
      (vns.stateAt O s0 n).k ≤ VariableNeighborhoodSearch.K_MAX) ∧
    (vns.step O i s).current = (vns.step O i s).best_feasible_allocation ∧
    ((vns.step O i s).k =
      if vns.improves (O i) s = true then 1
      else if s.k = VariableNeighborhoodSearch.K_MAX then 1 else s.k + 1) ∧
    (vns.improves (O i) s = false →
      (vns.step O i s).current = s.current ∧
      (vns.step O i s).best_feasible_allocation = s.best_feasible_allocation ∧
      (vns.step O i s).best_feasible_value = s.best_feasible_value) :=
  ⟨vns_step_k_bounds vns O i s hk,
   vns_stateAt_k_bounds vns O s0 hk0 n,
   vns_step_current_eq_best vns O i s hcur,
   vns_step_k_update vns O i s hk hstop ht,
   fun himp => vns_step_frame_on_failure vns O i s himp⟩

/-- Witness for C7 at a concrete state of the one-patient instance. -/
theorem C7_vns_k_discipline_witness :
    ((1 ≤ 1 ∧ 1 ≤ VariableNeighborhoodSearch.K_MAX) ∧ tinyAlloc = tinyAlloc ∧
      (false : Bool) = false ∧ (trivVNS 0).timeUp = false) ∧
    (let vns := VariableNeighborhoodSearch.mk tinyData (1/2) (1/2) 1000
     let s : VNSState := { current := tinyAlloc, best_feasible_value := 0,
                           best_feasible_allocation := tinyAlloc, k := 1, stopped := false }
     (1 ≤ (vns.step trivVNS 0 s).k ∧
        (vns.step trivVNS 0 s).k ≤ VariableNeighborhoodSearch.K_MAX) ∧
     (1 ≤ (vns.stateAt trivVNS s 2).k ∧
        (vns.stateAt trivVNS s 2).k ≤ VariableNeighborhoodSearch.K_MAX) ∧
     (vns.step trivVNS 0 s).current = (vns.step trivVNS 0 s).best_feasible_allocation ∧
     ((vns.step trivVNS 0 s).k =
       if vns.improves (trivVNS 0) s = true then 1
       else if s.k = VariableNeighborhoodSearch.K_MAX then 1 else s.k + 1) ∧
     (vns.improves (trivVNS 0) s = false →
       (vns.step trivVNS 0 s).current = s.current ∧
       (vns.step trivVNS 0 s).best_feasible_allocation = s.best_feasible_allocation ∧
       (vns.step trivVNS 0 s).best_feasible_value = s.best_feasible_value)) :=
  ⟨⟨⟨by decide, by decide⟩, rfl, rfl, rfl⟩,
    C7_vns_k_discipline (VariableNeighborhoodSearch.mk tinyData (1/2) (1/2) 1000)
      trivVNS 0 2
      { current := tinyAlloc, best_feasible_value := 0,
                   best_feasible_allocation := tinyAlloc, k := 1, stopped := false }
      { current := tinyAlloc, best_feasible_value := 0,
                   best_feasible_allocation := tinyAlloc, k := 1, stopped := false }
      (by decide) rfl (by decide) rfl rfl⟩

/-! ## The SA acceptance rule, cooling schedule and stop (C6) -/

/-- C6.  On finite objectives, an SA iteration accepts a strictly better
neighbor outright and, at positive temperature, accepts a strictly worse one
exactly when the uniform draw falls below `exp(-Δ/temperature)` (`e` stands
for `math.exp`); the working solution follows that acceptance test; the
temperature is multiplied by the cooling rate once per iteration; the run
flags itself stopped exactly when the cooled temperature falls below the
`0.01` floor, a stopped state absorbs all later iterations, and an
uninterrupted run's temperature is the geometric decay of the initial one. -/
theorem C6_sa_acceptance_cooling_stop (sa : SimulatedAnnealing) (e : ℚ → ℚ)
    (O : ℕ → SAChoice) (cooling_rate : ℚ) (i n : ℕ) (s s0 : SAState)
    (c nq r T : ℚ) (hT : 0 < T) (hactive : s.stopped = false)
    (hrun : ∀ m < n, (sa.stateAt e O cooling_rate s0 m).stopped = false) :
    (nq < c → saAccept e r (c : WithTop ℚ) (nq : WithTop ℚ) T = true) ∧
    (c < nq →
      (saAccept e r (c : WithTop ℚ) (nq : WithTop ℚ) T = true ↔ r < e (-(nq - c) / T))) ∧
    ((sa.step e O cooling_rate i s).current =
      if saAccept e (O i).r s.current.objective_value
          (sa._get_neighbor (O i) s.current).objective_value s.temperature = true
      then sa._get_neighbor (O i) s.current else s.current) ∧
    ((sa.step e O cooling_rate i s).temperature = s.temperature * cooling_rate) ∧
    ((sa.step e O cooling_rate i s).stopped = true ↔
      (sa.step e O cooling_rate i s).temperature < 1/100) ∧
    (∀ s' : SAState, s'.stopped = true → sa.step e O cooling_rate i s' = s') ∧
    (sa.stateAt e O cooling_rate s0 n).temperature =
      s0.temperature * cooling_rate ^ n := by
  refine ⟨?_, ?_, ?_, ?_, ?_, ?_, ?_⟩
  · intro hlt
    show (decide (nq - c < 0) || _) = true
    have : nq - c < 0 := by linarith
    simp [this]
  · intro hgt
    show (decide (nq - c < 0) || (decide (0 < T) && decide (r < e (-(nq - c) / T)))) = true ↔ _
    have h1 : ¬ (nq - c < 0) := by linarith
    simp [h1, hT]
  · unfold SimulatedAnnealing.step
    rw [if_neg (by simp [hactive])]
  · unfold SimulatedAnnealing.step
    rw [if_neg (by simp [hactive])]
  · unfold SimulatedAnnealing.step
    rw [if_neg (by simp [hactive])]
    simp only [decide_eq_true_eq]
  · intro s' hs'
    unfold SimulatedAnnealing.step
    rw [if_pos hs']
  · induction n with
    | zero => simp [SimulatedAnnealing.stateAt]
    | succ m ih =>
      have hm : (sa.stateAt e O cooling_rate s0 m).stopped = false :=
        hrun m (Nat.lt_succ_self m)
      have ihm := ih (fun k hk => hrun k (Nat.lt_succ_of_lt hk))
      simp only [SimulatedAnnealing.stateAt]
      unfold SimulatedAnnealing.step
      rw [if_neg (by simp [hm])]
      show (sa.stateAt e O cooling_rate s0 m).temperature * cooling_rate = _
      rw [ihm, pow_succ]
      ring

/-- Witness for C6 at concrete finite objectives, unit temperature and a
concrete active state. -/
theorem C6_sa_acceptance_cooling_stop_witness :
    ((0 : ℚ) < 1 ∧ (SAState.mk (Solution.mk tinyAlloc ⊤ false)
        (Solution.mk tinyAlloc ⊤ false) 1000 false).stopped = false ∧
      (∀ m < 0, ((SimulatedAnnealing.mk tinyData (1/2) (1/2)).stateAt (fun q => q)
        (fun _ => SAChoice.mk 0 0 0 0 0 0) (19/20)
        (SAState.mk (Solution.mk tinyAlloc ⊤ false) (Solution.mk tinyAlloc ⊤ false)
          1000 false) m).stopped = false)) ∧
    (((1 : ℚ) < 0 → saAccept (fun q => q) 0 ((0 : ℚ) : WithTop ℚ) ((1 : ℚ) : WithTop ℚ) 1 = true) ∧
      ((0 : ℚ) < 1 →
        (saAccept (fun q => q) 0 ((0 : ℚ) : WithTop ℚ) ((1 : ℚ) : WithTop ℚ) 1 = true ↔
          (0 : ℚ) < (fun q => q) (-((1 : ℚ) - 0) / 1))) ∧
      (((SimulatedAnnealing.mk tinyData (1/2) (1/2)).step (fun q => q)
          (fun _ => SAChoice.mk 0 0 0 0 0 0) (19/20) 0
          (SAState.mk (Solution.mk tinyAlloc ⊤ false) (Solution.mk tinyAlloc ⊤ false)
            1000 false)).current =
        if saAccept (fun q => q) ((fun _ => SAChoice.mk 0 0 0 0 0 (0 : ℚ)) 0).r
            (SAState.mk (Solution.mk tinyAlloc ⊤ false) (Solution.mk tinyAlloc ⊤ false)
              1000 false).current.objective_value
            ((SimulatedAnnealing.mk tinyData (1/2) (1/2))._get_neighbor
              ((fun _ => SAChoice.mk 0 0 0 0 0 (0 : ℚ)) 0)
              (SAState.mk (Solution.mk tinyAlloc ⊤ false) (Solution.mk tinyAlloc ⊤ false)
                1000 false).current).objective_value
            (SAState.mk (Solution.mk tinyAlloc ⊤ false) (Solution.mk tinyAlloc ⊤ false)
              1000 false).temperature = true
        then (SimulatedAnnealing.mk tinyData (1/2) (1/2))._get_neighbor
            ((fun _ => SAChoice.mk 0 0 0 0 0 (0 : ℚ)) 0)
            (SAState.mk (Solution.mk tinyAlloc ⊤ false) (Solution.mk tinyAlloc ⊤ false)
              1000 false).current
        else (SAState.mk (Solution.mk tinyAlloc ⊤ false) (Solution.mk tinyAlloc ⊤ false)
          1000 false).current) ∧
      (((SimulatedAnnealing.mk tinyData (1/2) (1/2)).step (fun q => q)
          (fun _ => SAChoice.mk 0 0 0 0 0 0) (19/20) 0
          (SAState.mk (Solution.mk tinyAlloc ⊤ false) (Solution.mk tinyAlloc ⊤ false)
            1000 false)).temperature =
        (SAState.mk (Solution.mk tinyAlloc ⊤ false) (Solution.mk tinyAlloc ⊤ false)
          1000 false).temperature * (19/20)) ∧
      (((SimulatedAnnealing.mk tinyData (1/2) (1/2)).step (fun q => q)
          (fun _ => SAChoice.mk 0 0 0 0 0 0) (19/20) 0
          (SAState.mk (Solution.mk tinyAlloc ⊤ false) (Solution.mk tinyAlloc ⊤ false)
            1000 false)).stopped = true ↔
        ((SimulatedAnnealing.mk tinyData (1/2) (1/2)).step (fun q => q)
          (fun _ => SAChoice.mk 0 0 0 0 0 0) (19/20) 0
          (SAState.mk (Solution.mk tinyAlloc ⊤ false) (Solution.mk tinyAlloc ⊤ false)
            1000 false)).temperature < 1/100) ∧
      (∀ s' : SAState, s'.stopped = true →
        (SimulatedAnnealing.mk tinyData (1/2) (1/2)).step (fun q => q)
          (fun _ => SAChoice.mk 0 0 0 0 0 0) (19/20) 0 s' = s') ∧
      ((SimulatedAnnealing.mk tinyData (1/2) (1/2)).stateAt (fun q => q)
        (fun _ => SAChoice.mk 0 0 0 0 0 0) (19/20)
        (SAState.mk (Solution.mk tinyAlloc ⊤ false) (Solution.mk tinyAlloc ⊤ false)
          1000 false) 0).temperature =
        (SAState.mk (Solution.mk tinyAlloc ⊤ false) (Solution.mk tinyAlloc ⊤ false)
          1000 false).temperature * (19/20) ^ 0) :=
  ⟨⟨by norm_num, rfl, fun m hm => absurd hm (Nat.not_lt_zero m)⟩,
    C6_sa_acceptance_cooling_stop (SimulatedAnnealing.mk tinyData (1/2) (1/2))
      (fun q => q) (fun _ => SAChoice.mk 0 0 0 0 0 0) (19/20) 0 0
      (SAState.mk (Solution.mk tinyAlloc ⊤ false) (Solution.mk tinyAlloc ⊤ false)
        1000 false)
      (SAState.mk (Solution.mk tinyAlloc ⊤ false) (Solution.mk tinyAlloc ⊤ false)
        1000 false)
      0 1 0 1 (by norm_num) rfl (fun m hm => absurd hm (Nat.not_lt_zero m))⟩

/-! ## The feasible flag tracks finiteness of the objective (C10) -/

/-- The invariant tying a `Solution`'s cached flag to its cached objective. -/
def solGood (sol : Solution) : Prop :=
  sol.feasible = true ↔ sol.objective_value ≠ ⊤

/-- `Solution.evaluate` establishes the invariant: it writes `⊤`/`false` on
any failed check and a finite value/`true` otherwise. -/
theorem evaluate_solGood (data : PatientAllocationData) (allocation : Alloc)
    (lambda1 lambda2 : ℚ) : solGood (Solution.evaluate data allocation lambda1 lambda2) := by
  unfold solGood Solution.evaluate
  split
  · simp
  · exact ⟨fun _ => WithTop.coe_ne_top, fun _ => rfl⟩

/-- `_get_neighbor` re-evaluates, so its result satisfies the invariant. -/
theorem get_neighbor_solGood (sa : SimulatedAnnealing) (ch : SAChoice)
    (solution : Solution) : solGood (sa._get_neighbor ch solution) := by
  unfold SimulatedAnnealing._get_neighbor
  exact evaluate_solGood _ _ _ _

/-- The greedy initial solution is evaluated, so it satisfies the invariant. -/
theorem generate_initial_solGood (sa : SimulatedAnnealing) :
    solGood sa._generate_initial_solution := by
  unfold SimulatedAnnealing._generate_initial_solution
  exact evaluate_solGood _ _ _ _

/-- One SA iteration preserves the invariant on both the working and the
best solution. -/
theorem sa_step_solGood (sa : SimulatedAnnealing) (e : ℚ → ℚ) (O : ℕ → SAChoice)
    (cooling_rate : ℚ) (i : ℕ) (s : SAState)
    (h : solGood s.current ∧ solGood s.best_solution) :
    solGood (sa.step e O cooling_rate i s).current ∧
    solGood (sa.step e O cooling_rate i s).best_solution := by
  unfold SimulatedAnnealing.step
  by_cases hstop : s.stopped
  · simp only [if_pos hstop]; exact h
  · simp only [if_neg hstop]
    by_cases hacc : saAccept e (O i).r s.current.objective_value
        (sa._get_neighbor (O i) s.current).objective_value s.temperature = true
    · simp only [hacc, if_true, Bool.true_and]
      refine ⟨get_neighbor_solGood _ _ _, ?_⟩
      split
      · exact get_neighbor_solGood _ _ _
      · exact h.2
    · simp only [Bool.not_eq_true] at hacc
      simp only [hacc, Bool.false_eq_true, Bool.false_and, if_false]
      exact h

/-- Along any SA run from an invariant-satisfying state, the invariant
holds. -/
theorem sa_stateAt_solGood (sa : SimulatedAnnealing) (e : ℚ → ℚ) (O : ℕ → SAChoice)
    (cooling_rate : ℚ) (s0 : SAState)
    (h0 : solGood s0.current ∧ solGood s0.best_solution) :
    ∀ n, solGood (sa.stateAt e O cooling_rate s0 n).current ∧
      solGood (sa.stateAt e O cooling_rate s0 n).best_solution := by
  intro n
  induction n with
  | zero => exact h0
  | succ n ih => exact sa_step_solGood sa e O cooling_rate n _ ih

/-- Membership is preserved by the stable insertion. -/
theorem mem_pyInsert {α : Type} (le : α → α → Bool) (x y : α) (l : List α) :
    y ∈ pyInsert le x l ↔ y = x ∨ y ∈ l := by
  induction l with
  | nil => simp [pyInsert]
  | cons z zs ih =>
    unfold pyInsert
    split
    · simp only [List.mem_cons, ih]
      tauto
    · simp only [List.mem_cons]

/-- Membership is preserved by the stable sort. -/
theorem mem_pySort {α : Type} (le : α → α → Bool) (l : List α) (y : α) :
    y ∈ pySort le l ↔ y ∈ l := by
  unfold pySort
  suffices h : ∀ acc : List α, y ∈ l.foldl (fun acc x => pyInsert le x acc) acc ↔
      y ∈ acc ∨ y ∈ l by
    simpa using h []
  induction l with
  | nil => intro acc; simp
  | cons z zs ih =>
    intro acc
    simp only [List.foldl_cons, ih, mem_pyInsert, List.mem_cons]
    tauto

/-- One Tabu iteration preserves the invariant on both the working and the
best solution. -/
theorem tabu_step_solGood (tb : TabuSearch) (O : ℕ → ℕ → SAChoice)
    (tabu_tenure i : ℕ) (s : TabuState)
    (h : solGood s.current ∧ solGood s.best_solution) :
    solGood (tb.step O tabu_tenure i s).current ∧
    solGood (tb.step O tabu_tenure i s).best_solution := by
  unfold TabuSearch.step
  dsimp only
  split
  · exact h
  · next neighbor hfind =>
    have hmem : neighbor ∈ (List.range 20).map
        (fun j => (SimulatedAnnealing.mk tb.data tb.lambda1 tb.lambda2)._get_neighbor
          (O i j) s.current) := by
      have := List.mem_of_find?_eq_some hfind
      exact (mem_pySort _ _ _).mp this
    have hgood : solGood neighbor := by
      rcases List.mem_map.mp hmem with ⟨j, _, rfl⟩
      exact get_neighbor_solGood _ _ _
    refine ⟨hgood, ?_⟩
    split
    · exact hgood
    · exact h.2

/-- Along any Tabu run from an invariant-satisfying state, the invariant
holds. -/
theorem tabu_stateAt_solGood (tb : TabuSearch) (O : ℕ → ℕ → SAChoice)
    (tabu_tenure : ℕ) (s0 : TabuState)
    (h0 : solGood s0.current ∧ solGood s0.best_solution) :
    ∀ n, solGood (tb.stateAt O tabu_tenure s0 n).current ∧
      solGood (tb.stateAt O tabu_tenure s0 n).best_solution := by
  intro n
  induction n with
  | zero => exact h0
  | succ n ih => exact tabu_step_solGood tb O tabu_tenure n _ ih

/-- C10.  `Solution.evaluate` makes the feasible flag true exactly when the
objective is finite, and the result records of `SimulatedAnnealing.solve`
and `TabuSearch.solve` inherit this: their `feasible` entry is true exactly
when their `objective_value` entry is not `+∞`. -/
theorem C10_feasible_iff_finite (sa : SimulatedAnnealing) (tb : TabuSearch)
    (data0 : PatientAllocationData) (allocation : Alloc) (lambda1 lambda2 : ℚ)
    (e : ℚ → ℚ) (Os : ℕ → SAChoice) (Ot : ℕ → ℕ → SAChoice)
    (n1 n2 tabu_tenure : ℕ) (initial_temp cooling_rate : ℚ) :
    ((Solution.evaluate data0 allocation lambda1 lambda2).feasible = true ↔
      (Solution.evaluate data0 allocation lambda1 lambda2).objective_value ≠ ⊤) ∧
    ((sa.solve e Os n1 initial_temp cooling_rate).feasible = true ↔
      (sa.solve e Os n1 initial_temp cooling_rate).objective_value ≠ ⊤) ∧
    ((tb.solve Ot n2 tabu_tenure).feasible = true ↔
      (tb.solve Ot n2 tabu_tenure).objective_value ≠ ⊤) := by
  refine ⟨evaluate_solGood data0 allocation lambda1 lambda2, ?_, ?_⟩
  · unfold SimulatedAnnealing.solve
    exact (sa_stateAt_solGood sa e Os cooling_rate _
      ⟨generate_initial_solGood sa, generate_initial_solGood sa⟩ n1).2
  · unfold TabuSearch.solve
    exact (tabu_stateAt_solGood tb Ot tabu_tenure _
      ⟨generate_initial_solGood _, generate_initial_solGood _⟩ n2).2

/-! ## The constructive heuristic raises on saturation (C2) -/

/-- The patient of the spec's literal saturation scenario: window `[0,0]`,
length of stay 1. -/
def litPatient : Patient :=
  { specialization := 0, earliest := 0, latest := 0, los := 1, surgery_duration := 1, workload_per_day := [1] }

/-- The literal saturation instance: 3 such patients, one compatible ward
with bed capacity 2, a one-day horizon. -/
def litData : PatientAllocationData where
  patients := [(0, litPatient), (1, litPatient), (2, litPatient)]
  wards := [(0, { bed_capacity := 2, workload_capacity := 10, major_specialization := 0, minor_specializations := [], carryover_patients := [0], carryover_workload := [0] })]
  specialisms := [(0, { ot_time := [100], workload_factor := 1 })]
  num_days := 1
  weight_delay := 1
  weight_overtime := 1
  weight_undertime := 1

/-- The allocation after the first greedy placement. -/
def litAlloc1 : Alloc := [(0, { ward := 0, day := 0 })]

/-- The allocation after the second greedy placement: the ward is full. -/
def litAlloc2 : Alloc := [(0, { ward := 0, day := 0 }), (1, { ward := 0, day := 0 })]

/-- Every patient of the literal instance (and the default fallback) has
latest admission day 0. -/
theorem lit_patient_latest (pid : ℕ) :
    (dictGetD litData.patients pid default).latest = 0 := by
  unfold dictGetD
  cases hf : litData.patients.find? (fun kv => decide (kv.1 = pid)) with
  | none => rfl
  | some kv =>
    have hmem := List.mem_of_find?_eq_some hf
    fin_cases hmem <;> rfl

/-- On the literal instance the forward-shift repair fails whatever candidate
list the shuffle oracle produces: no patient can move to day 1, which is
outside every window and the horizon. -/
theorem lit_repairGo (l : List ℕ) : ∀ tried : ℕ,
    tinyRepairGo litData litAlloc2 3 l tried = (false, litAlloc2) := by
  induction l with
  | nil => intro tried; rfl
  | cons pid rest ih =>
    intro tried
    unfold tinyRepairGo
    split
    · rfl
    · have hday : ¬ ((dictGetD litAlloc2 pid default).day + 1 ≤
          min (dictGetD litData.patients pid default).latest (litData.num_days - 1)) := by
        rw [lit_patient_latest, Nat.zero_min]
        omega
      rw [if_neg hday]
      exact ih (tried + 1)

/-- On the literal instance the whole repair phase leaves the full ward
unchanged and consumes exactly one shuffle draw. -/
theorem lit_repairWards (shuffle : ℕ → List ℕ → List ℕ) :
    repairWards litData shuffle litPatient [0] litAlloc2 0 = (litAlloc2, 1) := by
  have hrange1 : rangeFT litPatient.earliest (min (litPatient.latest + 1) litData.num_days) = [0] := rfl
  have hrange2 : rangeFT 0 (min (0 + litPatient.los) litData.num_days) = [0] := rfl
  have hcap : count_beds_used_on_day litData litAlloc2 0 0 ≥
      (dictGetD litData.wards 0 default).bed_capacity := by decide
  simp only [repairWards, repairDays, repairDayChecks, hrange1, hrange2, if_pos hcap,
    _tiny_repair_shift_same_ward_day_forward, lit_repairGo]
  decide

/-- The greedy order of the literal instance is the insertion order (all sort
keys are equal and the sort is stable). -/
theorem lit_sort : pySort greedyLE litData.patients = litData.patients := rfl

/-- `fallbackScan`'s inner day loop: the running minimum yields no candidate
exactly when it started with none and every score of the scanned days is
infinite; moreover a candidateless state keeps an infinite running minimum. -/
theorem scanDays_spec (f : ℕ → WithTop ℚ) (g : ℕ → ℕ × ℕ) (days : List ℕ) :
    ∀ acc : WithTop ℚ × Option (ℕ × ℕ), (acc.2 = none → acc.1 = ⊤) →
      (((days.foldl (fun a d => if f d < a.1 then (f d, some (g d)) else a) acc).2 = none →
          (days.foldl (fun a d => if f d < a.1 then (f d, some (g d)) else a) acc).1 = ⊤) ∧
       ((days.foldl (fun a d => if f d < a.1 then (f d, some (g d)) else a) acc).2 = none ↔
          acc.2 = none ∧ ∀ d ∈ days, f d = ⊤)) := by
  induction days with
  | nil =>
    intro acc hacc
    refine ⟨hacc, ?_⟩
    simp
  | cons d ds ih =>
    intro acc hacc
    simp only [List.foldl_cons]
    by_cases hlt : f d < acc.1
    · rw [if_pos hlt]
      have h1 := ih (f d, some (g d)) (by intro h; simp at h)
      refine ⟨h1.1, ?_⟩
      rw [h1.2]
      constructor
      · rintro ⟨h, _⟩; simp at h
      · rintro ⟨hnone, hall⟩
        exfalso
        have htop := hacc hnone
        rw [htop] at hlt
        exact absurd (hall d (List.mem_cons_self d ds)) (ne_of_lt hlt)
    · rw [if_neg hlt]
      have h1 := ih acc hacc
      refine ⟨h1.1, ?_⟩
      rw [h1.2]
      constructor
      · rintro ⟨hnone, hds⟩
        refine ⟨hnone, ?_⟩
        intro d2 hd2
        rcases List.mem_cons.mp hd2 with rfl | hd2
        · have htop := hacc hnone
          rw [htop] at hlt
          by_contra hne
          exact hlt (WithTop.lt_top_iff_ne_top.mpr hne)
        · exact hds d2 hd2
      · rintro ⟨hnone, hall⟩
        exact ⟨hnone, fun d2 hd2 => hall d2 (List.mem_cons_of_mem d hd2)⟩

/-- `fallbackScan`'s ward loop, built from the day loops. -/
theorem scanWards_spec (F : ℕ → ℕ → WithTop ℚ) (days : List ℕ) (wards : List ℕ) :
    ∀ acc : WithTop ℚ × Option (ℕ × ℕ), (acc.2 = none → acc.1 = ⊤) →
      (((wards.foldl (fun a w =>
            days.foldl (fun a d => if F w d < a.1 then (F w d, some (w, d)) else a) a) acc).2 = none →
          (wards.foldl (fun a w =>
            days.foldl (fun a d => if F w d < a.1 then (F w d, some (w, d)) else a) a) acc).1 = ⊤) ∧
       ((wards.foldl (fun a w =>
            days.foldl (fun a d => if F w d < a.1 then (F w d, some (w, d)) else a) a) acc).2 = none ↔
          acc.2 = none ∧ ∀ w ∈ wards, ∀ d ∈ days, F w d = ⊤)) := by
  induction wards with
  | nil =>
    intro acc hacc
    refine ⟨hacc, ?_⟩
    simp
  | cons w ws ih =>
    intro acc hacc
    simp only [List.foldl_cons]
    have hday := scanDays_spec (F w) (fun d => (w, d)) days acc hacc
    have hih := ih (days.foldl (fun a d => if F w d < a.1 then (F w d, some (w, d)) else a) acc)
      hday.1
    refine ⟨hih.1, ?_⟩
    rw [hih.2, hday.2]
    constructor
    · rintro ⟨⟨hnone, hd⟩, hws⟩
      refine ⟨hnone, ?_⟩
      intro w2 hw2
      rcases List.mem_cons.mp hw2 with rfl | hw2
      · exact hd
      · exact hws w2 hw2
    · rintro ⟨hnone, hall⟩
      exact ⟨⟨hnone, hall w (List.mem_cons_self w ws)⟩,
        fun w2 hw2 => hall w2 (List.mem_cons_of_mem w hw2)⟩

/-- `fallbackScan` finds no placement exactly when every (compatible ward,
window day) trial is capacity-infeasible, i.e. scores `float("inf")`. -/
theorem fallbackScan_none_iff (data : PatientAllocationData) (alloc : Alloc)
    (pid : ℕ) (p : Patient) (wards : List ℕ) :
    fallbackScan data alloc pid p wards = none ↔
      ∀ w ∈ wards, ∀ d ∈ rangeFT p.earliest (min (p.latest + 1) data.num_days),
        _score_trial data alloc pid w d (1/2) (1/2) = ⊤ := by
  unfold fallbackScan
  have h := scanWards_spec (fun w d => _score_trial data alloc pid w d (1/2) (1/2))
    (rangeFT p.earliest (min (p.latest + 1) data.num_days)) wards
    ((⊤ : WithTop ℚ), (none : Option (ℕ × ℕ))) (fun _ => rfl)
  rw [h.2]
  simp

/-- `placePatient` fails exactly when the first fit, the post-repair first
fit and the scored fallback all find nothing. -/
theorem placePatient_none_iff (data : PatientAllocationData)
    (shuffle : ℕ → List ℕ → List ℕ) (alloc : Alloc) (pid : ℕ) (p : Patient) (ctr : ℕ) :
    (placePatient data shuffle alloc pid p ctr).1 = none ↔
      (firstFit data alloc p (compatible_wards_for_patient data p) = none ∧
       firstFit data (repairWards data shuffle p (compatible_wards_for_patient data p) alloc ctr).1
         p (compatible_wards_for_patient data p) = none ∧
       fallbackScan data (repairWards data shuffle p (compatible_wards_for_patient data p) alloc ctr).1
         pid p (compatible_wards_for_patient data p) = none) := by
  unfold placePatient
  cases h1 : firstFit data alloc p (compatible_wards_for_patient data p) with
  | some wd =>
    rcases wd with ⟨w, d⟩
    simp [h1]
  | none =>
    simp only [h1]
    cases h2 : firstFit data
        (repairWards data shuffle p (compatible_wards_for_patient data p) alloc ctr).1 p
        (compatible_wards_for_patient data p) with
    | some wd =>
      rcases wd with ⟨w, d⟩
      simp [h2]
    | none =>
      simp only [h2]
      cases h3 : fallbackScan data
          (repairWards data shuffle p (compatible_wards_for_patient data p) alloc ctr).1 pid p
          (compatible_wards_for_patient data p) with
      | some wd =>
        rcases wd with ⟨w, d⟩
        simp [h3]
      | none =>
        simp [h3]

/-- The placement of the third patient of the literal instance fails for
every shuffle oracle: first fit, repair plus second fit, and the scored
fallback all find nothing. -/
theorem lit_placePatient_none (shuffle : ℕ → List ℕ → List ℕ) :
    (placePatient litData shuffle litAlloc2 2 litPatient 0).1 = none := by
  rw [placePatient_none_iff]
  refine ⟨rfl, ?_, ?_⟩
  · rw [show compatible_wards_for_patient litData litPatient = [0] from rfl,
      lit_repairWards shuffle]
    rfl
  · rw [show compatible_wards_for_patient litData litPatient = [0] from rfl,
      lit_repairWards shuffle]
    rfl

/-- C2.  On the literal 3-patient, capacity-2, one-day instance the greedy
construction raises the saturation error naming the third patient, for every
shuffle oracle, instead of returning a capacity-violating allocation; and in
general a patient's placement fails exactly when, after the bounded repair,
neither first-fit scan nor the objective-scored fallback over all (ward,
window-day) pairs — all of whose trials are then capacity-infeasible — finds
a slot. -/
theorem C2_greedy_saturation :
    (∀ shuffle : ℕ → List ℕ → List ℕ,
      greedy_feasible_by_window_strict litData shuffle = .error 2) ∧
    (∀ (data : PatientAllocationData) (shuffle : ℕ → List ℕ → List ℕ)
        (alloc : Alloc) (pid : ℕ) (p : Patient) (ctr : ℕ),
      (placePatient data shuffle alloc pid p ctr).1 = none ↔
        (firstFit data alloc p (compatible_wards_for_patient data p) = none ∧
         firstFit data
           (repairWards data shuffle p (compatible_wards_for_patient data p) alloc ctr).1
           p (compatible_wards_for_patient data p) = none ∧
         fallbackScan data
           (repairWards data shuffle p (compatible_wards_for_patient data p) alloc ctr).1
           pid p (compatible_wards_for_patient data p) = none)) ∧
    (∀ (data : PatientAllocationData) (alloc : Alloc) (pid : ℕ) (p : Patient)
        (wards : List ℕ),
      fallbackScan data alloc pid p wards = none ↔
        ∀ w ∈ wards, ∀ d ∈ rangeFT p.earliest (min (p.latest + 1) data.num_days),
          _score_trial data alloc pid w d (1/2) (1/2) = ⊤) := by
  refine ⟨?_, placePatient_none_iff, fallbackScan_none_iff⟩
  intro shuffle
  unfold greedy_feasible_by_window_strict
  rw [lit_sort]
  show greedyGo litData shuffle [(0, litPatient), (1, litPatient), (2, litPatient)] [] 0 = .error 2
  have h0 : placePatient litData shuffle [] 0 litPatient 0 = (some litAlloc1, 0) := rfl
  have h1 : placePatient litData shuffle litAlloc1 1 litPatient 0 = (some litAlloc2, 0) := rfl
  simp only [greedyGo, h0, h1]
  rcases hpp : placePatient litData shuffle litAlloc2 2 litPatient 0 with ⟨o, c⟩
  have ho : o = none := by
    have h := lit_placePatient_none shuffle
    rw [hpp] at h
    exact h
  subst ho
  simp [hpp]

/-! ## The ILS perturbation trigger (C8) -/

/-- The objective value of the one-patient instance's seed (kept symbolic:
only its self-comparison matters below). -/
def litBest : ℚ := objective_value tinyData tinyAlloc (1/2) (1/2)

/-- The fast local search of the one-patient instance never moves the
patient: the only sampled day is the current admission day. -/
theorem lit_ls :
    ((IteratedLocalSearch.mk tinyData (1/2) (1/2) 1000)._local_search_fast trivLS tinyAlloc).1 =
      tinyAlloc := rfl

/-- On the one-patient instance a perturbation of intensity `1/5` selects an
empty mix: `max(1, int(1·0.2)) = 1` target, and both halves have size
`1 ÷ 2 = 0`. -/
theorem lit_perturbTargets :
    (IteratedLocalSearch.mk tinyData (1/2) (1/2) 1000).perturbTargets trivPerturb
      tinyAlloc (1/5) = [] := by
  unfold IteratedLocalSearch.perturbTargets
  have hfl : pyFloor ((tinyData.patients.length : ℚ) * (1/5)) = 0 := by
    show pyFloor ((1 : ℕ) * (1/5)) = 0
    unfold pyFloor
    rw [Nat.floor_eq_iff (by norm_num)]
    norm_num
  simp only [hfl]
  decide

/-- On the one-patient instance a perturbation of intensity `1/5` changes
nothing (its selected mix is empty). -/
theorem lit_perturb :
    (IteratedLocalSearch.mk tinyData (1/2) (1/2) 1000)._perturbation_mixed trivPerturb
      tinyAlloc (1/5) = tinyAlloc := by
  unfold IteratedLocalSearch._perturbation_mixed
  rw [lit_perturbTargets]
  rfl

/-- The exact trajectory of the ILS loop on the one-patient instance: every
iteration is non-improving, the counter cycles modulo the stagnation limit,
and one perturbation of intensity `1/5` fires every 20 iterations. -/
theorem lit_ils_stateAt (n : ℕ) :
    (IteratedLocalSearch.mk tinyData (1/2) (1/2) 1000).stateAt trivILS
      { current := tinyAlloc, best_feasible_value := litBest,
        best_feasible_allocation := tinyAlloc, no_improve_counter := 0,
        stopped := false, perturb_log := [] } n =
      { current := tinyAlloc, best_feasible_value := litBest,
        best_feasible_allocation := tinyAlloc, no_improve_counter := n % 20,
        stopped := false, perturb_log := List.replicate (n / 20) (1/5 : ℚ) } := by
  induction n with
  | zero => rfl
  | succ n ih =>
    simp only [IteratedLocalSearch.stateAt, ih]
    have hfeas : feasible_after_change_beds tinyData tinyAlloc none = true := by decide
    have hni : ¬ (objective_value tinyData tinyAlloc (1/2) (1/2) + 1/1000000000 < litBest) := by
      rw [show litBest = objective_value tinyData tinyAlloc (1/2) (1/2) from rfl]
      intro h
      linarith
    simp only [IteratedLocalSearch.step, trivILS, lit_ls, hfeas, if_true, if_neg hni,
      Bool.false_eq_true, if_false, IteratedLocalSearch.STAGNATION_LIMIT]
    by_cases h19 : n % 20 = 19
    · rw [if_pos (show n % 20 + 1 ≥ 20 by omega)]
      have hint : min IteratedLocalSearch.perturb_max_ratio
          (IteratedLocalSearch.perturb_base_ratio *
            (1 + ((n % 20 + 1 : ℕ) : ℚ) / ((20 : ℕ) : ℚ))) = (1/5 : ℚ) := by
        rw [h19]
        unfold IteratedLocalSearch.perturb_max_ratio IteratedLocalSearch.perturb_base_ratio
        norm_num [min_def]
      rw [hint, lit_perturb]
      have h1 : (n + 1) % 20 = 0 := by omega
      have h2 : (n + 1) / 20 = n / 20 + 1 := by omega
      rw [h1, h2, List.replicate_succ']
    · rw [if_neg (show ¬ n % 20 + 1 ≥ 20 by omega)]
      have h1 : (n + 1) % 20 = n % 20 + 1 := by omega
      have h2 : (n + 1) / 20 = n / 20 := by omega
      rw [h1, h2]
      rw [decide_eq_false (show ¬ n % 20 + 1 ≥ 20 * 2 by omega)]

/-- Counterexample for C8.  A concrete 40-iteration ILS run on the
one-patient instance performs two stagnation-triggered perturbations, both
with the same perturbed fraction `1/5 = 0.20`: the fraction does not scale
upward with repeated stagnation. -/
theorem C8_counterexample_constant_intensity :
    ((IteratedLocalSearch.mk tinyData (1/2) (1/2) 1000).stateAt trivILS
      { current := tinyAlloc, best_feasible_value := litBest,
        best_feasible_allocation := tinyAlloc, no_improve_counter := 0,
        stopped := false, perturb_log := [] } 40).perturb_log = [1/5, 1/5] := by
  rw [lit_ils_stateAt 40]
  rfl

/-- A `find?` by a key different from the overwritten one ignores the
overwrite. -/
theorem find?_map_setKey {β : Type} (l : List (ℕ × β)) (k k' : ℕ) (v : β)
    (h : k' ≠ k) :
    (l.map (fun kv => if kv.1 = k then (k, v) else kv)).find?
        (fun kv => decide (kv.1 = k')) =
      l.find? (fun kv => decide (kv.1 = k')) := by
  induction l with
  | nil => rfl
  | cons x xs ih =>
    simp only [List.map_cons, List.find?_cons]
    by_cases hx : x.1 = k
    · rw [if_pos hx]
      have e1 : (decide ((k, v).1 = k')) = false := by
        simp only [decide_eq_false_iff_not]
        exact fun he => h he.symm
      have e2 : (decide (x.1 = k')) = false := by
        simp only [decide_eq_false_iff_not]
        rw [hx]
        exact fun he => h he.symm
      rw [e1, e2]
      exact ih
    · rw [if_neg hx]
      cases hdx : decide (x.1 = k') with
      | true => rfl
      | false => exact ih

/-- A `find?` by a key different from a newly appended one ignores the
appended entry. -/
theorem find?_append_single_ne {β : Type} (l : List (ℕ × β)) (k k' : ℕ) (v : β)
    (h : k' ≠ k) :
    ((l ++ [(k, v)]).find? (fun kv => decide (kv.1 = k'))) =
      l.find? (fun kv => decide (kv.1 = k')) := by
  induction l with
  | nil =>
    simp only [List.nil_append, List.find?_cons]
    have e1 : (decide ((k, v).1 = k')) = false := by
      simp only [decide_eq_false_iff_not]
      exact fun he => h he.symm
    rw [e1]
  | cons x xs ih =>
    simp only [List.cons_append, List.find?_cons]
    cases hdx : decide (x.1 = k') with
    | true => rfl
    | false => exact ih

/-- Updating one key of a dict leaves lookups of every other key unchanged. -/
theorem dictFind_dictSet_ne {β : Type} (l : List (ℕ × β)) (k k' : ℕ) (v : β)
    (h : k' ≠ k) : dictFind (dictSet l k v) k' = dictFind l k' := by
  unfold dictFind dictSet
  split
  · rw [find?_map_setKey l k k' v h]
  · rw [find?_append_single_ne l k k' v h]

/-- The perturbation's reassignment loop leaves every patient outside the
selected list untouched. -/
theorem perturbApply_frame_aux (self : IteratedLocalSearch) (ch : PerturbChoice)
    (pid : ℕ) :
    ∀ (l : List ℕ) (m : ℕ) (acc : Alloc), pid ∉ l →
      dictFind ((l.enumFrom m).foldl
        (fun perturbed iv =>
          let p := dictGetD self.data.patients iv.2 default
          let wards := compatible_wards_for_patient self.data p
          let new_ward := pyChoice wards (ch.wardPick iv.1)
          let new_day := pyRandint p.earliest (min p.latest (self.data.num_days - 1))
            (ch.dayPick iv.1)
          dictSet perturbed iv.2 ⟨new_ward, new_day⟩) acc) pid = dictFind acc pid := by
  intro l
  induction l with
  | nil => intro m acc _; rfl
  | cons x xs ih =>
    intro m acc hmem
    simp only [List.enumFrom, List.foldl_cons]
    rw [ih (m + 1) _ (fun hx => hmem (List.mem_cons_of_mem x hx))]
    exact dictFind_dictSet_ne acc x pid _ (fun he => hmem (he ▸ List.mem_cons_self x xs))

/-- `_perturbation_mixed` reassigns exactly the selected mix: every other
patient's entry is unchanged. -/
theorem perturbation_mixed_frame (self : IteratedLocalSearch) (ch : PerturbChoice)
    (allocation : Alloc) (intensity : ℚ) (pid : ℕ)
    (h : pid ∉ self.perturbTargets ch allocation intensity) :
    dictFind (self._perturbation_mixed ch allocation intensity) pid =
      dictFind allocation pid := by
  unfold IteratedLocalSearch._perturbation_mixed IteratedLocalSearch.perturbApply
  rw [show (self.perturbTargets ch allocation intensity).enum =
      List.enumFrom 0 (self.perturbTargets ch allocation intensity) from rfl]
  exact perturbApply_frame_aux self ch pid _ 0 allocation h

/-- One ILS iteration keeps the stagnation counter at most 19 (it is reset
to 0 at 20, so 20 is the only reachable trigger value). -/
theorem ils_step_counter_le (self : IteratedLocalSearch) (O : ℕ → ILSChoice)
    (i : ℕ) (s : ILSState) (h : s.no_improve_counter ≤ 19) :
    (self.step O i s).no_improve_counter ≤ 19 := by
  unfold IteratedLocalSearch.step
  by_cases hstop : s.stopped
  · simp only [if_pos hstop]; exact h
  · simp only [if_neg hstop]
    by_cases ht : (O i).timeUp
    · simp only [if_pos ht]; exact h
    · simp only [if_neg ht]
      by_cases hf : feasible_after_change_beds self.data
          ((self._local_search_fast (O i).ls s.current).1) none = true
      · simp only [hf, if_true]
        by_cases himp : objective_value self.data
            ((self._local_search_fast (O i).ls s.current).1) self.lambda1 self.lambda2
            + 1/1000000000 < s.best_feasible_value
        · simp only [if_pos himp]
          split <;> simp <;> omega
        · simp only [if_neg himp]
          split
          · simp
          · next hlt =>
            simp only [IteratedLocalSearch.STAGNATION_LIMIT] at hlt
            simp
            omega
      · simp only [Bool.not_eq_true] at hf
        simp only [hf, Bool.false_eq_true, if_false]
        split
        · simp
        · next hlt =>
          simp only [IteratedLocalSearch.STAGNATION_LIMIT] at hlt
          simp
          omega

/-- Whenever an ILS iteration perturbs (from any state with counter at most
19), the logged intensity is exactly `1/5`, the new working allocation is
the perturbation of the stored best allocation, and the counter is reset;
otherwise the log is unchanged. -/
theorem ils_step_perturb_spec (self : IteratedLocalSearch) (O : ℕ → ILSChoice)
    (i : ℕ) (s : ILSState) (h : s.no_improve_counter ≤ 19) :
    (self.step O i s).perturb_log = s.perturb_log ∨
    ((self.step O i s).perturb_log = s.perturb_log ++ [(1/5 : ℚ)] ∧
     (self.step O i s).current = self._perturbation_mixed (O i).perturb
       (self.step O i s).best_feasible_allocation (1/5) ∧
     (self.step O i s).no_improve_counter = 0) := by
  unfold IteratedLocalSearch.step
  by_cases hstop : s.stopped
  · simp only [if_pos hstop]; exact Or.inl trivial
  · simp only [if_neg hstop]
    by_cases ht : (O i).timeUp
    · simp only [if_pos ht]; exact Or.inl trivial
    · simp only [if_neg ht]
      by_cases hf : feasible_after_change_beds self.data
          ((self._local_search_fast (O i).ls s.current).1) none = true
      · simp only [hf, if_true]
        by_cases himp : objective_value self.data
            ((self._local_search_fast (O i).ls s.current).1) self.lambda1 self.lambda2
            + 1/1000000000 < s.best_feasible_value
        · simp only [if_pos himp]
          rw [if_neg (by simp [IteratedLocalSearch.STAGNATION_LIMIT])]
          exact Or.inl rfl
        · simp only [if_neg himp]
          by_cases hfire : s.no_improve_counter + 1 ≥ IteratedLocalSearch.STAGNATION_LIMIT
          · rw [if_pos hfire]
            have h20 : s.no_improve_counter + 1 = 20 := by
              simp only [IteratedLocalSearch.STAGNATION_LIMIT] at hfire
              omega
            have hint : min IteratedLocalSearch.perturb_max_ratio
                (IteratedLocalSearch.perturb_base_ratio *
                  (1 + ((s.no_improve_counter + 1 : ℕ) : ℚ) /
                    ((IteratedLocalSearch.STAGNATION_LIMIT : ℕ) : ℚ))) = (1/5 : ℚ) := by
              rw [h20]
              unfold IteratedLocalSearch.perturb_max_ratio
                IteratedLocalSearch.perturb_base_ratio IteratedLocalSearch.STAGNATION_LIMIT
              norm_num [min_def]
            rw [hint]
            exact Or.inr ⟨rfl, rfl, rfl⟩
          · rw [if_neg hfire]
            exact Or.inl rfl
      · simp only [Bool.not_eq_true] at hf
        simp only [hf, Bool.false_eq_true, if_false]
        by_cases hfire : s.no_improve_counter + 1 ≥ IteratedLocalSearch.STAGNATION_LIMIT
        · rw [if_pos hfire]
          have h20 : s.no_improve_counter + 1 = 20 := by
            simp only [IteratedLocalSearch.STAGNATION_LIMIT] at hfire
            omega
          have hint : min IteratedLocalSearch.perturb_max_ratio
              (IteratedLocalSearch.perturb_base_ratio *
                (1 + ((s.no_improve_counter + 1 : ℕ) : ℚ) /
                  ((IteratedLocalSearch.STAGNATION_LIMIT : ℕ) : ℚ))) = (1/5 : ℚ) := by
            rw [h20]
            unfold IteratedLocalSearch.perturb_max_ratio
              IteratedLocalSearch.perturb_base_ratio IteratedLocalSearch.STAGNATION_LIMIT
            norm_num [min_def]
          rw [hint]
          exact Or.inr ⟨rfl, rfl, rfl⟩
        · rw [if_neg hfire]
          exact Or.inl rfl

/-- C8 (amended).  When the ILS stagnation counter reaches its threshold the
perturbation is applied to the best-known allocation — reassigning only the
selected mix of randomly chosen and worst delay-contributing patients — and
the counter is reset; but the perturbed fraction does not scale upward with
repeated stagnation: the counter is at most 19 at all times, so every
perturbation fires at counter = 20 with the constant fraction
`min(0.25, 0.10·(1 + 20/20)) = 0.20`, strictly below the cap. -/
theorem C8_perturbation_constant_fraction (ils : IteratedLocalSearch)
    (O : ℕ → ILSChoice) (i : ℕ) (s : ILSState) (ch : PerturbChoice)
    (allocation : Alloc) (intensity : ℚ) (pid : ℕ)
    (hcnt : s.no_improve_counter ≤ 19)
    (hpid : pid ∉ ils.perturbTargets ch allocation intensity) :
    (ils.step O i s).no_improve_counter ≤ 19 ∧
    ((ils.step O i s).perturb_log = s.perturb_log ∨
      ((ils.step O i s).perturb_log = s.perturb_log ++ [(1/5 : ℚ)] ∧
       (ils.step O i s).current = ils._perturbation_mixed (O i).perturb
         (ils.step O i s).best_feasible_allocation (1/5) ∧
       (ils.step O i s).no_improve_counter = 0)) ∧
    ((1/5 : ℚ) = min IteratedLocalSearch.perturb_max_ratio
        (IteratedLocalSearch.perturb_base_ratio *
          (1 + ((IteratedLocalSearch.STAGNATION_LIMIT : ℕ) : ℚ) /
            ((IteratedLocalSearch.STAGNATION_LIMIT : ℕ) : ℚ))) ∧
      (1/5 : ℚ) < IteratedLocalSearch.perturb_max_ratio) ∧
    dictFind (ils._perturbation_mixed ch allocation intensity) pid =
      dictFind allocation pid := by
  refine ⟨ils_step_counter_le ils O i s hcnt, ils_step_perturb_spec ils O i s hcnt,
    ⟨?_, ?_⟩, perturbation_mixed_frame ils ch allocation intensity pid hpid⟩
  · unfold IteratedLocalSearch.perturb_max_ratio IteratedLocalSearch.perturb_base_ratio
      IteratedLocalSearch.STAGNATION_LIMIT
    norm_num [min_def]
  · unfold IteratedLocalSearch.perturb_max_ratio
    norm_num

/-- Witness for the amended C8 at a concrete state of the one-patient
instance, with a patient id outside the (empty) selected mix. -/
theorem C8_perturbation_constant_fraction_witness :
    (({ current := tinyAlloc, best_feasible_value := litBest,
         best_feasible_allocation := tinyAlloc, no_improve_counter := 0,
         stopped := false, perturb_log := [] } : ILSState).no_improve_counter ≤ 19 ∧
      (7 : ℕ) ∉ (IteratedLocalSearch.mk tinyData (1/2) (1/2) 1000).perturbTargets
        trivPerturb tinyAlloc (1/5)) ∧
    (((IteratedLocalSearch.mk tinyData (1/2) (1/2) 1000).step trivILS 0
        { current := tinyAlloc, best_feasible_value := litBest,
          best_feasible_allocation := tinyAlloc, no_improve_counter := 0,
          stopped := false, perturb_log := [] }).no_improve_counter ≤ 19 ∧
      (((IteratedLocalSearch.mk tinyData (1/2) (1/2) 1000).step trivILS 0
          { current := tinyAlloc, best_feasible_value := litBest,
            best_feasible_allocation := tinyAlloc, no_improve_counter := 0,
            stopped := false, perturb_log := [] }).perturb_log =
        ({ current := tinyAlloc, best_feasible_value := litBest,
           best_feasible_allocation := tinyAlloc, no_improve_counter := 0,
           stopped := false, perturb_log := [] } : ILSState).perturb_log ∨
        (((IteratedLocalSearch.mk tinyData (1/2) (1/2) 1000).step trivILS 0
            { current := tinyAlloc, best_feasible_value := litBest,
              best_feasible_allocation := tinyAlloc, no_improve_counter := 0,
              stopped := false, perturb_log := [] }).perturb_log =
          ({ current := tinyAlloc, best_feasible_value := litBest,
             best_feasible_allocation := tinyAlloc, no_improve_counter := 0,
             stopped := false, perturb_log := [] } : ILSState).perturb_log ++ [(1/5 : ℚ)] ∧
         ((IteratedLocalSearch.mk tinyData (1/2) (1/2) 1000).step trivILS 0
            { current := tinyAlloc, best_feasible_value := litBest,
              best_feasible_allocation := tinyAlloc, no_improve_counter := 0,
              stopped := false, perturb_log := [] }).current =
           (IteratedLocalSearch.mk tinyData (1/2) (1/2) 1000)._perturbation_mixed
             (trivILS 0).perturb
             ((IteratedLocalSearch.mk tinyData (1/2) (1/2) 1000).step trivILS 0
               { current := tinyAlloc, best_feasible_value := litBest,
                 best_feasible_allocation := tinyAlloc, no_improve_counter := 0,
                 stopped := false, perturb_log := [] }).best_feasible_allocation (1/5) ∧
         ((IteratedLocalSearch.mk tinyData (1/2) (1/2) 1000).step trivILS 0
            { current := tinyAlloc, best_feasible_value := litBest,
              best_feasible_allocation := tinyAlloc, no_improve_counter := 0,
              stopped := false, perturb_log := [] }).no_improve_counter = 0)) ∧
      ((1/5 : ℚ) = min IteratedLocalSearch.perturb_max_ratio
          (IteratedLocalSearch.perturb_base_ratio *
            (1 + ((IteratedLocalSearch.STAGNATION_LIMIT : ℕ) : ℚ) /
              ((IteratedLocalSearch.STAGNATION_LIMIT : ℕ) : ℚ))) ∧
        (1/5 : ℚ) < IteratedLocalSearch.perturb_max_ratio) ∧
      dictFind ((IteratedLocalSearch.mk tinyData (1/2) (1/2) 1000)._perturbation_mixed
          trivPerturb tinyAlloc (1/5)) 7 = dictFind tinyAlloc 7) :=
  ⟨⟨by decide, by rw [lit_perturbTargets]; simp⟩,
    C8_perturbation_constant_fraction (IteratedLocalSearch.mk tinyData (1/2) (1/2) 1000)
      trivILS 0
      { current := tinyAlloc, best_feasible_value := litBest,
        best_feasible_allocation := tinyAlloc, no_improve_counter := 0,
        stopped := false, perturb_log := [] }
      trivPerturb tinyAlloc (1/5) 7 (by decide)
      (by rw [lit_perturbTargets]; simp)⟩
